import Mathlib

/-!
Verification of the event-sourced user aggregate and its event-driven
replication protocol of the flarexio/identity service.

The development shallowly embeds:
* the `User` aggregate of `user/repository.go` (status machine, social
  account set, pending-event buffer),
* the domain-event model and the event buffer (the event structs and the
  flarexio/core `EventStore` are not part of the source snapshot; they are
  modelled from the specification, see the doc comments below),
* the GORM/SQLite user repository of `persistence/db` (`Store`, `Delete`,
  `Find`, `FindByUsername`, `FindBySocialID`) as a table-level state,
* the projection handlers of `service.go`.

Go `time.Time` values are abstracted as `Nat` instants, with `0` playing
the role of the zero time (`IsZero`); every method that reads the clock
takes the current instant as an explicit argument.
-/

namespace Identity

/-- User status enum of `user/repository.go` (`Pending Status = iota; ...`). -/
inductive Status where
  | pending
  | registered
  | activated
  | locked
  | revoked
deriving DecidableEq, Repr

/-- Social account of `user/repository.go`: `{SocialID, Provider, model.Model}`.
Providers and social ids are opaque strings in the source
(`type SocialProvider string`, `type SocialID string`). -/
structure SocialAccount where
  socialID : String
  provider : String
  createdAt : Nat
  updatedAt : Nat
  deletedAt : Nat
deriving DecidableEq, Repr

/-- The persistent fields of the `User` aggregate root of
`user/repository.go` (everything except the transient event buffer). -/
structure UserData where
  id : String
  username : String
  name : String
  email : String
  status : Status
  accounts : List SocialAccount
  avatar : String
  createdAt : Nat
  updatedAt : Nat
  deletedAt : Nat
deriving DecidableEq, Repr

/-- Modelled from the spec: the event structs live in the repository's user
events file, which is absent from the source snapshot; section 4.2 fixes the
payload as the full `User` snapshot at registration time, and `service.go`
consumes the `User` field. -/
structure UserRegisteredEvent where
  user : UserData
deriving DecidableEq, Repr

/-- Modelled from the spec: payload `{UserID, Status, OccurredAt}`
(section 4.2); `service.go` consumes `UserID`, `Status` and `OccuredAt`. -/
structure UserActivatedEvent where
  userID : String
  status : Status
  occuredAt : Nat
deriving DecidableEq, Repr

/-- Modelled from the spec: payload `{UserID, Account, OccurredAt}`
(section 4.2); `service.go` consumes `UserID`, `Account` and `OccuredAt`. -/
structure UserSocialAccountAddedEvent where
  userID : String
  account : SocialAccount
  occuredAt : Nat
deriving DecidableEq, Repr

/-- Modelled from the spec: payload `{UserID, Account, OccurredAt}`
(section 4.2), symmetric to the added event. -/
structure UserSocialAccountRemovedEvent where
  userID : String
  account : SocialAccount
  occuredAt : Nat
deriving DecidableEq, Repr

/-- Modelled from the spec: payload `{UserID, OccurredAt}` (section 4.2);
`service.go` consumes `UserID` and `OccuredAt`. -/
structure UserDeletedEvent where
  userID : String
  occuredAt : Nat
deriving DecidableEq, Repr

/-- The closed set of domain events a user aggregate emits (spec section
4.2, mirrored by the type switch in the transport's `EventHandler`). -/
inductive Event where
  | registered (e : UserRegisteredEvent)
  | activated (e : UserActivatedEvent)
  | socialAccountAdded (e : UserSocialAccountAddedEvent)
  | socialAccountRemoved (e : UserSocialAccountRemovedEvent)
  | deleted (e : UserDeletedEvent)
deriving DecidableEq, Repr

/-- The `User` aggregate of `user/repository.go`: the persistent fields
plus the embedded `events.EventStore`, modelled as the list of pending
events in emission order (spec section 3: `pendingEvents` is transient and
drained on `Notify()`). -/
structure User extends UserData where
  pendingEvents : List Event
deriving DecidableEq, Repr

/-- `NewSocialAccount` of `user/repository.go`: fresh account with
`createdAt = updatedAt = now`. -/
def NewSocialAccount (provider : String) (id : String) (now : Nat) : SocialAccount :=
  { socialID := id
    provider := provider
    createdAt := now
    updatedAt := now
    deletedAt := 0 }

/-- `NewUser` of `user/repository.go`: status `Pending`, empty account
list, `CreatedAt` taken from the ULID-embedded timestamp of the fresh id,
fresh (empty) event store. The minted ULID and its embedded time are
passed explicitly. -/
def NewUser (id : String) (idTime : Nat) (username name email : String) : User :=
  { id := id
    username := username
    name := name
    email := email
    status := .pending
    accounts := []
    avatar := ""
    createdAt := idTime
    updatedAt := 0
    deletedAt := 0
    pendingEvents := [] }

/-- Modelled from the spec: `AddEvent` of the flarexio/core `EventStore`
(absent from the snapshot) appends the event to the pending buffer in
emission order (spec sections 3 and 4.1). -/
def User.addEvent (u : User) (e : Event) : User :=
  { u with pendingEvents := u.pendingEvents ++ [e] }

/-- Modelled from the spec: `Notify()` of the flarexio/core `EventStore`
(absent from the snapshot) drains the pending buffer and publishes the
events in emission order (spec section 4.3); the published list is
returned alongside the drained aggregate. -/
def User.notify (u : User) : List Event × User :=
  (u.pendingEvents, { u with pendingEvents := [] })

/-- `User.Register` of `user/repository.go`: status becomes `Registered`,
`UpdatedAt = now`, and a `UserRegistered` event carrying the full snapshot
is buffered. -/
def User.register (u : User) (now : Nat) : User :=
  let u := { u with status := .registered, updatedAt := now }
  u.addEvent (.registered ⟨u.toUserData⟩)

/-- `User.Activate` of `user/repository.go`: status becomes `Activated`,
`UpdatedAt = now`, and a `UserActivated` event is buffered. -/
def User.activate (u : User) (now : Nat) : User :=
  let u := { u with status := .activated, updatedAt := now }
  u.addEvent (.activated ⟨u.id, .activated, now⟩)

/-- `User.Delete` of `user/repository.go`: status becomes `Revoked`,
`UpdatedAt` and `DeletedAt` are both set to the same `now`, and a
`UserDeleted` event is buffered. -/
def User.delete (u : User) (now : Nat) : User :=
  let u := { u with status := .revoked, updatedAt := now, deletedAt := now }
  u.addEvent (.deleted ⟨u.id, now⟩)

/-- `User.HasSocialAccount` of `user/repository.go`: scan of the account
list for the exact `(Provider, SocialID)` pair. -/
def User.hasSocialAccount (u : User) (provider socialID : String) : Bool :=
  u.accounts.any (fun a => a.provider == provider && a.socialID == socialID)

/-- `User.AddSocialAccount` of `user/repository.go`: conflict error when
the pair is already present, otherwise append a fresh account, update
`UpdatedAt` and buffer a `UserSocialAccountAdded` event. The pair
(resulting aggregate, returned error) mirrors the Go receiver mutation
plus error return. -/
def User.addSocialAccount (u : User) (provider socialID : String) (now : Nat) :
    User × Option String :=
  if u.hasSocialAccount provider socialID then
    (u, some "social account already exists")
  else
    let account := NewSocialAccount provider socialID now
    let u := { u with accounts := u.accounts ++ [account], updatedAt := now }
    (u.addEvent (.socialAccountAdded ⟨u.id, account, now⟩), none)

/-- The account-scanning loop of `User.RemoveSocialAccount` of
`user/repository.go`: walks the account list, keeps the non-matching
accounts in order, and buffers one `UserSocialAccountRemoved` event per
matching account in list order. -/
def removeLoop (uid provider socialID : String) (now : Nat) :
    List SocialAccount → List SocialAccount × List Event
  | [] => ([], [])
  | a :: rest =>
    let r := removeLoop uid provider socialID now rest
    if a.provider == provider && a.socialID == socialID then
      (r.1, Event.socialAccountRemoved ⟨uid, a, now⟩ :: r.2)
    else
      (a :: r.1, r.2)

/-- `User.RemoveSocialAccount` of `user/repository.go`: the loop above,
then the not-found error when the kept list has the original length (no
match), otherwise the filtered account list and `UpdatedAt = now`. -/
def User.removeSocialAccount (u : User) (provider socialID : String) (now : Nat) :
    User × Option String :=
  let r := removeLoop u.id provider socialID now u.accounts
  if r.1.length = u.accounts.length then
    (u, some "social account not found")
  else
    ({ u with accounts := r.1, updatedAt := now,
              pendingEvents := u.pendingEvents ++ r.2 }, none)

/-! ## The GORM/SQLite user repository (`persistence/db`)

The data models carry `gorm:"primaryKey"` tags: `users` is keyed by `id`,
`social_accounts` by the composite `(user_id, social_id)`.  Both embed a
`gorm.DeletedAt` soft-delete column, modelled as a `Nat` that is `0` when
the row is live (the repository's conversions keep the flag and the time
in sync: `Valid = !DeletedAt.IsZero()`). -/

/-- A row of the `users` table (`persistence/db` data model: id, username,
name, email, status plus the `DataModel` timestamps; there is no avatar
column). -/
structure UserRow where
  id : String
  username : String
  name : String
  email : String
  status : Status
  createdAt : Nat
  updatedAt : Nat
  deletedAt : Nat
deriving DecidableEq, Repr

/-- A row of the `social_accounts` table (`persistence/db` data model),
keyed by `(userID, socialID)`. -/
structure AccountRow where
  userID : String
  socialID : String
  provider : String
  createdAt : Nat
  updatedAt : Nat
  deletedAt : Nat
deriving DecidableEq, Repr

/-- The repository state: the two SQLite tables, each in row order. -/
structure DB where
  users : List UserRow
  accounts : List AccountRow
deriving DecidableEq, Repr

/-- `db.NewUser` of `persistence/db`: domain-to-data conversion of the
user row (drops `Avatar` and `Accounts`; the accounts become rows of
their own). -/
def NewUserRow (u : UserData) : UserRow :=
  { id := u.id
    username := u.username
    name := u.name
    email := u.email
    status := u.status
    createdAt := u.createdAt
    updatedAt := u.updatedAt
    deletedAt := u.deletedAt }

/-- `db.NewSocialAccount` of `persistence/db`: domain-to-data conversion
of one account row for the given user id. -/
def NewAccountRow (uid : String) (a : SocialAccount) : AccountRow :=
  { userID := uid
    socialID := a.socialID
    provider := a.provider
    createdAt := a.createdAt
    updatedAt := a.updatedAt
    deletedAt := a.deletedAt }

/-- `SocialAccount.reconstitute` of `persistence/db`: data-to-domain
conversion of one account row. -/
def AccountRow.reconstitute (r : AccountRow) : SocialAccount :=
  { socialID := r.socialID
    provider := r.provider
    createdAt := r.createdAt
    updatedAt := r.updatedAt
    deletedAt := r.deletedAt }

/-- `User.reconstitute` of `persistence/db`: data-to-domain conversion of
a user row together with its preloaded accounts.  The data model has no
avatar column, so the reconstituted avatar is empty. -/
def UserRow.reconstitute (r : UserRow) (accounts : List SocialAccount) : UserData :=
  { id := r.id
    username := r.username
    name := r.name
    email := r.email
    status := r.status
    accounts := accounts
    avatar := ""
    createdAt := r.createdAt
    updatedAt := r.updatedAt
    deletedAt := r.deletedAt }

/-- Primary-key collision test for `social_accounts` rows: the table is
keyed by `(user_id, social_id)` (and not by provider). -/
def keyMatch (r x : AccountRow) : Bool :=
  x.userID == r.userID && x.socialID == r.socialID

/-- Sequential insertion of account rows with SQLite's
insert-or-ignore-on-conflict semantics: GORM's `Save` upserts the
has-many association rows with an on-conflict-do-nothing clause, so a row
whose `(user_id, social_id)` key is already present is skipped. -/
def insertAccounts : List AccountRow → List AccountRow → List AccountRow
  | rows, [] => rows
  | rows, r :: rest =>
    if rows.any (keyMatch r) then insertAccounts rows rest
    else insertAccounts (rows ++ [r]) rest

/-- The subsequence of `new` that `insertAccounts rows new` actually
appends to `rows`: each candidate is kept only when its key collides
neither with `rows` nor with an earlier kept candidate. -/
def filterNew : List AccountRow → List AccountRow → List AccountRow
  | _, [] => []
  | rows, r :: rest =>
    if rows.any (keyMatch r) then filterNew rows rest
    else r :: filterNew (rows ++ [r]) rest

/-- GORM's create-time timestamp tracking: a zero `CreatedAt`/`UpdatedAt`
value is filled with the clock when the row is inserted; a nonzero value
is written as given. -/
def fillTime (t now : Nat) : Nat :=
  if t = 0 then now else t

/-- The create-path timestamp fill applied to a domain account when its
row is inserted. -/
def fillAccountTimes (a : SocialAccount) (now : Nat) : SocialAccount :=
  { a with
    createdAt := fillTime a.createdAt now
    updatedAt := fillTime a.updatedAt now }

/-- The create-path timestamp fill on an account row. -/
def fillRowTimes (r : AccountRow) (now : Nat) : AccountRow :=
  { r with
    createdAt := fillTime r.createdAt now
    updatedAt := fillTime r.updatedAt now }

/-- The user-row half of GORM's `Save` at write clock `now`:
* a live row with the primary key exists — the soft-delete scope adds
  `deleted_at IS NULL` to the UPDATE, which writes every column from the
  struct except `updated_at`, which `AutoUpdateTime` overwrites with the
  clock;
* the only rows with the primary key are soft-deleted — the scoped UPDATE
  matches nothing, `Save` falls back to `Create`, and the INSERT violates
  the `users` primary key, so the call errors;
* no row with the primary key — `Create` inserts the row, filling zero
  timestamps with the clock. -/
def saveUser (rows : List UserRow) (r : UserRow) (now : Nat) :
    Except String (List UserRow) :=
  if rows.any (fun x => x.id == r.id && x.deletedAt == 0) then
    .ok (rows.map (fun x =>
      if x.id == r.id && x.deletedAt == 0 then { r with updatedAt := now } else x))
  else if rows.any (fun x => x.id == r.id) then
    .error "UNIQUE constraint failed: users.id"
  else
    .ok (rows ++ [{ r with
      createdAt := fillTime r.createdAt now
      updatedAt := fillTime r.updatedAt now }])

/-- `userRepository.Store` of `persistence/db` at write clock `now`:
inside one transaction, unscoped-delete every `social_accounts` row of
the user, then `Save` the user row together with its account rows (the
association rows are created with zero timestamps filled and an
on-conflict-do-nothing clause).  A `Save` error rolls the transaction
back, so an erroring `Store` leaves the repository unchanged. -/
def DB.store (db : DB) (u : UserData) (now : Nat) : Except String DB :=
  match saveUser db.users (NewUserRow u) now with
  | .error msg => .error msg
  | .ok users =>
    .ok { users := users
          accounts := insertAccounts (db.accounts.filter (fun r => !(r.userID == u.id)))
            (u.accounts.map (fun a => fillRowTimes (NewAccountRow u.id a) now)) }

/-- `userRepository.Delete` of `persistence/db`: unscoped (hard) delete of
the user's `social_accounts` rows, then a GORM soft delete of the user row
(set `deleted_at = now` on the live row with that primary key; the other
columns are left as stored). -/
def DB.delete (db : DB) (u : UserData) (now : Nat) : DB :=
  { users := db.users.map (fun r =>
      if r.id == u.id && r.deletedAt == 0 then { r with deletedAt := now } else r)
    accounts := db.accounts.filter (fun r => !(r.userID == u.id)) }

/-- `Preload("Accounts")` used by the finders: the user's live account
rows, reconstituted, in table order (soft-deleted account rows are
excluded by GORM's default scope). -/
def DB.preload (db : DB) (id : String) : List SocialAccount :=
  (db.accounts.filter (fun r => r.userID == id && r.deletedAt == 0)).map
    AccountRow.reconstitute

/-- `userRepository.Find` of `persistence/db`: `Take` the live user row
with the given id (GORM's default scope hides soft-deleted rows);
`ErrUserNotFound` is modelled as `none`. -/
def DB.find (db : DB) (id : String) : Option UserData :=
  (db.users.find? (fun r => r.id == id && r.deletedAt == 0)).map
    (fun r => r.reconstitute (db.preload id))

/-- `userRepository.FindByUsername` of `persistence/db`. -/
def DB.findByUsername (db : DB) (username : String) : Option UserData :=
  (db.users.find? (fun r => r.username == username && r.deletedAt == 0)).map
    (fun r => r.reconstitute (db.preload r.id))

/-- `userRepository.FindBySocialID` of `persistence/db`: inner join of
`users` with `social_accounts` on `user_id`, filtered by the social id;
the raw join sees every account row, the user row itself must be live. -/
def DB.findBySocialID (db : DB) (socialID : String) : Option UserData :=
  (db.users.find? (fun r => r.deletedAt == 0 &&
      db.accounts.any (fun a => a.userID == r.id && a.socialID == socialID))).map
    (fun r => r.reconstitute (db.preload r.id))

/-- The structural invariant SQLite's primary keys force on every
reachable repository state: `users` is keyed by `id` and
`social_accounts` by `(user_id, social_id)`. -/
def WF (db : DB) : Prop :=
  (db.users.map (fun r => r.id)).Nodup ∧
    (db.accounts.map (fun r => (r.userID, r.socialID))).Nodup

instance (db : DB) : Decidable (WF db) := by
  unfold WF; infer_instance

/-! ## Projection handlers (`service.go`) and the Register use-case -/

/-- `service.UserRegisteredHandler` of `service.go`: unconditionally store
the embedded user snapshot; a `Store` error is returned to the caller
with the repository unchanged (transaction rollback).  `now` is the
repository's write clock. -/
def UserRegisteredHandler (db : DB) (e : UserRegisteredEvent) (now : Nat) :
    DB × Option String :=
  match db.store e.user now with
  | .error msg => (db, some msg)
  | .ok db' => (db', none)

/-- `service.UserActivatedHandler` of `service.go`: find the user by id
(the repository's not-found error is the string of `ErrUserNotFound`),
set status and `UpdatedAt` from the event in memory, re-store (the store
then overwrites the row's `updated_at` with the write clock `now`). -/
def UserActivatedHandler (db : DB) (e : UserActivatedEvent) (now : Nat) :
    DB × Option String :=
  match db.find e.userID with
  | none => (db, some "user not found")
  | some u =>
    match db.store { u with status := e.status, updatedAt := e.occuredAt } now with
    | .error msg => (db, some msg)
    | .ok db' => (db', none)

/-- `service.UserSocialAccountAddedHandler` of `service.go`: find the
user, append the event's account to the in-memory list, set `UpdatedAt`
from the event in memory, re-store at write clock `now`. -/
def UserSocialAccountAddedHandler (db : DB) (e : UserSocialAccountAddedEvent)
    (now : Nat) : DB × Option String :=
  match db.find e.userID with
  | none => (db, some "user not found")
  | some u =>
    match db.store { u with
        accounts := u.accounts ++ [e.account]
        updatedAt := e.occuredAt } now with
    | .error msg => (db, some msg)
    | .ok db' => (db', none)

/-- Modelled from the spec: the `UserSocialAccountRemovedHandler`
implementation is missing from the source snapshot (only its caller, the
transport's `EventEndpoint`, and spec section 4.4 describe it).  Per the
spec it is symmetric to the added handler: load the user by id, remove the
account matching the event's `(Provider, SocialID)` pair, set `UpdatedAt`
from the event in memory, re-store at write clock `now`. -/
def UserSocialAccountRemovedHandler (db : DB) (e : UserSocialAccountRemovedEvent)
    (now : Nat) : DB × Option String :=
  match db.find e.userID with
  | none => (db, some "user not found")
  | some u =>
    match db.store { u with
        accounts := u.accounts.filter (fun a =>
          !(a.provider == e.account.provider && a.socialID == e.account.socialID))
        updatedAt := e.occuredAt } now with
    | .error msg => (db, some msg)
    | .ok db' => (db', none)

/-- `service.UserDeletedHandler` of `service.go`: find the user, set
status `Revoked` and both timestamps from the event, then soft-delete via
the repository's delete path; `now` is the database clock used by the
soft delete. -/
def UserDeletedHandler (db : DB) (e : UserDeletedEvent) (now : Nat) : DB × Option String :=
  match db.find e.userID with
  | none => (db, some "user not found")
  | some u =>
    (db.delete { u with
        status := .revoked
        updatedAt := e.occuredAt
        deletedAt := e.occuredAt } now, none)

/-- `service.Register` of `service.go`: conflict when the username is
taken, otherwise construct a fresh user (the repository is never written)
and drain its (empty) event buffer via the deferred `Notify`.  Repository
errors other than not-found are outside the model. -/
def serviceRegister (db : DB) (id : String) (idTime : Nat)
    (username name email : String) : DB × Except String User :=
  match db.findByUsername username with
  | some _ => (db, .error "user exists")
  | none =>
    let u := NewUser id idTime username name email
    (db, .ok u.notify.2)

/-! ## Helper functions used only to state the theorems -/

/-- Sequential `AddSocialAccount` calls (each use-case would abort on an
error; on the distinct pairs considered every call succeeds). -/
def addAccounts : User → List (String × String × Nat) → User
  | u, [] => u
  | u, (p, s, t) :: rest => addAccounts (u.addSocialAccount p s t).1 rest

/-- The `UserSocialAccountAdded` event buffered by a successful
`AddSocialAccount p s` at time `t` on a user with id `uid`. -/
def addedEvent (uid : String) (x : String × String × Nat) : Event :=
  .socialAccountAdded ⟨uid, NewSocialAccount x.1 x.2.1 x.2.2, x.2.2⟩

/-- Number of accounts in a list carrying exactly the
`(provider, socialID)` pair. -/
def pairCount (l : List SocialAccount) (provider socialID : String) : Nat :=
  (l.filter (fun a => a.provider == provider && a.socialID == socialID)).length

/-! ## Concrete sample inputs used by counterexamples and witnesses -/

/-- A user whose status is `Revoked` (a deleted user still held in
memory), with one pending event already buffered. -/
def revokedUser : User :=
  { id := "u1"
    username := "mirror"
    name := "Lin"
    email := "m@x.io"
    status := .revoked
    accounts := []
    avatar := ""
    createdAt := 1
    updatedAt := 2
    deletedAt := 2
    pendingEvents := [.deleted ⟨"u1", 2⟩] }

/-- Registered-event snapshot for the `C5` counterexample: the user
already holds the social id `"X"` under the `google` provider. -/
def c5User : UserData :=
  { id := "u1"
    username := "mirror"
    name := "Lin"
    email := "m@x.io"
    status := .activated
    accounts := [{ socialID := "X", provider := "google",
                   createdAt := 1, updatedAt := 1, deletedAt := 0 }]
    avatar := ""
    createdAt := 1
    updatedAt := 1
    deletedAt := 0 }

/-- Added account for the `C5` counterexample: the same social id `"X"`
under the `line` provider. -/
def c5Acc : SocialAccount :=
  { socialID := "X", provider := "line", createdAt := 2, updatedAt := 2, deletedAt := 0 }

/-- A one-user repository state used by witnesses: the user `"u1"` is
stored, live, with one google account row. -/
def sampleDB : DB :=
  { users := [{ id := "u1", username := "mirror", name := "Lin", email := "m@x.io",
                status := .registered, createdAt := 1, updatedAt := 1, deletedAt := 0 }]
    accounts := [{ userID := "u1", socialID := "g9", provider := "google",
                   createdAt := 1, updatedAt := 1, deletedAt := 0 }] }

/-- A `UserSocialAccountRemoved` event matching `sampleDB`'s stored
google account. -/
def sampleRemovedEvent : UserSocialAccountRemovedEvent :=
  { userID := "u1"
    account := { socialID := "g9", provider := "google",
                 createdAt := 1, updatedAt := 1, deletedAt := 0 }
    occuredAt := 6 }

/-- A repository state for the `C7` counterexample: two live users whose
account rows carry the same social id `"X"` under different user ids. -/
def c7DB : DB :=
  { users := [{ id := "u1", username := "mirror", name := "Lin", email := "m@x.io",
                status := .activated, createdAt := 1, updatedAt := 1, deletedAt := 0 },
              { id := "u2", username := "other", name := "Ann", email := "a@x.io",
                status := .activated, createdAt := 1, updatedAt := 1, deletedAt := 0 }]
    accounts := [{ userID := "u1", socialID := "X", provider := "google",
                   createdAt := 1, updatedAt := 1, deletedAt := 0 },
                 { userID := "u2", socialID := "X", provider := "line",
                   createdAt := 1, updatedAt := 1, deletedAt := 0 }] }

/-- The domain user `DB.find` reconstitutes from `sampleDB`. -/
def sampleUser : UserData :=
  { id := "u1"
    username := "mirror"
    name := "Lin"
    email := "m@x.io"
    status := .registered
    accounts := [{ socialID := "g9", provider := "google",
                   createdAt := 1, updatedAt := 1, deletedAt := 0 }]
    avatar := ""
    createdAt := 1
    updatedAt := 1
    deletedAt := 0 }

end Identity

namespace Identity

/-! ## Aggregate-level lemmas -/

lemma removeLoop_eq (uid p s : String) (now : Nat) (l : List SocialAccount) :
    removeLoop uid p s now l =
      (l.filter (fun a => !(a.provider == p && a.socialID == s)),
       (l.filter (fun a => a.provider == p && a.socialID == s)).map
         (fun a => Event.socialAccountRemoved ⟨uid, a, now⟩)) := by
  induction l with
  | nil => simp [removeLoop]
  | cons a rest ih =>
    cases hm : (a.provider == p && a.socialID == s) with
    | true =>
      have h1 : (a :: rest).filter (fun a => !(a.provider == p && a.socialID == s))
          = rest.filter (fun a => !(a.provider == p && a.socialID == s)) := by
        rw [List.filter_cons]; simp [hm]
      have h2 : (a :: rest).filter (fun a => a.provider == p && a.socialID == s)
          = a :: rest.filter (fun a => a.provider == p && a.socialID == s) := by
        rw [List.filter_cons]; simp [hm]
      simp only [removeLoop, hm, ih, h1, h2, List.map_cons, if_true]
    | false =>
      have h1 : (a :: rest).filter (fun a => !(a.provider == p && a.socialID == s))
          = a :: rest.filter (fun a => !(a.provider == p && a.socialID == s)) := by
        rw [List.filter_cons]; simp [hm]
      have h2 : (a :: rest).filter (fun a => a.provider == p && a.socialID == s)
          = rest.filter (fun a => a.provider == p && a.socialID == s) := by
        rw [List.filter_cons]; simp [hm]
      simp only [removeLoop, hm, ih, h1, h2, Bool.false_eq_true, if_false]

lemma filter_keep_of_none (l : List SocialAccount) (q : SocialAccount → Bool)
    (h : ∀ a ∈ l, q a = false) : l.filter (fun a => !q a) = l := by
  induction l with
  | nil => simp
  | cons a rest ih =>
    have ha := h a (by simp)
    simp [List.filter_cons, ha, ih fun x hx => h x (by simp [hx])]

lemma filter_length_lt_of_mem (l : List SocialAccount) (q : SocialAccount → Bool)
    (h : ∃ a ∈ l, q a = true) :
    (l.filter (fun a => !q a)).length ≠ l.length := by
  induction l with
  | nil => simp at h
  | cons a rest ih =>
    by_cases ha : q a = true
    · have hle : (rest.filter (fun x => !q x)).length ≤ rest.length :=
        List.length_filter_le _ _
      have hcons : (a :: rest).filter (fun x => !q x) = rest.filter (fun x => !q x) := by
        rw [List.filter_cons]; simp [ha]
      rw [hcons, List.length_cons]
      omega
    · simp only [Bool.not_eq_true] at ha
      obtain ⟨b, hb, hqb⟩ := h
      rcases List.mem_cons.mp hb with rfl | hbr
      · simp [ha] at hqb
      · have hne := ih ⟨b, hbr, hqb⟩
        have hcons : (a :: rest).filter (fun x => !q x)
            = a :: rest.filter (fun x => !q x) := by
          rw [List.filter_cons]; simp [ha]
        rw [hcons, List.length_cons, List.length_cons]
        omega

/-- C1. After a successful `AddSocialAccount(provider, socialID)`, a
second call with the same pair on the same user returns the conflict
error "social account already exists" and returns the aggregate exactly
as it was after the first call: the `Accounts` list (length and contents)
is unchanged and no event is appended to the pending-event buffer. -/
theorem c1_add_social_account_conflict (u : User) (p s : String) (n₁ n₂ : Nat) (u₁ : User)
    (h : u.addSocialAccount p s n₁ = (u₁, none)) :
    u₁.addSocialAccount p s n₂ = (u₁, some "social account already exists") := by
  unfold User.addSocialAccount at h ⊢
  by_cases hc : u.hasSocialAccount p s
  · simp [hc] at h
  · simp [hc] at h
    subst h
    have hhas : (User.addEvent
        { u with accounts := u.accounts ++ [NewSocialAccount p s n₁], updatedAt := n₁ }
        (.socialAccountAdded ⟨u.id, NewSocialAccount p s n₁, n₁⟩)).hasSocialAccount p s
        = true := by
      simp [User.hasSocialAccount, User.addEvent, NewSocialAccount]
    simp [hhas]

/-- Witness for C1 at a concrete input. -/
theorem c1_witness :
    ((NewUser "u1" 1 "mirror" "Lin" "m@x.io").addSocialAccount "google" "g9" 2).1.addSocialAccount
        "google" "g9" 3
      = (((NewUser "u1" 1 "mirror" "Lin" "m@x.io").addSocialAccount "google" "g9" 2).1,
         some "social account already exists") :=
  c1_add_social_account_conflict (NewUser "u1" 1 "mirror" "Lin" "m@x.io") "google" "g9" 2 3
    ((NewUser "u1" 1 "mirror" "Lin" "m@x.io").addSocialAccount "google" "g9" 2).1 rfl

/-- C3. `RemoveSocialAccount(provider, socialID)` fails with the error
"social account not found" exactly when no account with that pair is in
`Accounts` (leaving the aggregate untouched); otherwise it succeeds,
keeps exactly the non-matching accounts, sets `UpdatedAt` to the current
time and appends one `UserSocialAccountRemoved` event per removed match,
in list order. -/
theorem c3_remove_social_account (u : User) (p s : String) (now : Nat) :
    ((∀ a ∈ u.accounts, ¬(a.provider = p ∧ a.socialID = s)) →
      u.removeSocialAccount p s now = (u, some "social account not found"))
    ∧ ((∃ a ∈ u.accounts, a.provider = p ∧ a.socialID = s) →
      u.removeSocialAccount p s now =
        ({ u with
            accounts := u.accounts.filter (fun a => !(a.provider == p && a.socialID == s))
            updatedAt := now
            pendingEvents := u.pendingEvents ++
              (u.accounts.filter (fun a => a.provider == p && a.socialID == s)).map
                (fun a => Event.socialAccountRemoved ⟨u.id, a, now⟩) }, none)) := by
  constructor
  · intro hnone
    have hq : ∀ a ∈ u.accounts, (a.provider == p && a.socialID == s) = false := by
      intro a ha
      have hno := hnone a ha
      by_contra hcon
      simp only [Bool.not_eq_false] at hcon
      simp only [Bool.and_eq_true, beq_iff_eq] at hcon
      exact hno hcon
    have hkeep := filter_keep_of_none u.accounts _ hq
    simp only [User.removeSocialAccount, removeLoop_eq, hkeep]
    simp
  · intro hsome
    have hq : ∃ a ∈ u.accounts, (a.provider == p && a.socialID == s) = true := by
      obtain ⟨a, ha, hpa, hsa⟩ := hsome
      exact ⟨a, ha, by simp [hpa, hsa]⟩
    have hne := filter_length_lt_of_mem u.accounts _ hq
    simp only [User.removeSocialAccount, removeLoop_eq]
    rw [if_neg hne]

/-- Witness for C3 at a concrete input: removing the single matching
account succeeds, removing a pair that is absent fails. -/
theorem c3_witness :
    (((NewUser "u1" 1 "mirror" "Lin" "m@x.io").addSocialAccount "google" "g9" 2).1.removeSocialAccount
        "google" "g9" 3).2 = none
    ∧ (NewUser "u1" 1 "mirror" "Lin" "m@x.io").removeSocialAccount "google" "g9" 3
        = (NewUser "u1" 1 "mirror" "Lin" "m@x.io", some "social account not found") := by
  constructor
  · have h := (c3_remove_social_account
      ((NewUser "u1" 1 "mirror" "Lin" "m@x.io").addSocialAccount "google" "g9" 2).1
      "google" "g9" 3).2 (by decide)
    rw [h]
  · exact (c3_remove_social_account (NewUser "u1" 1 "mirror" "Lin" "m@x.io")
      "google" "g9" 3).1 (by decide)

/-- C8. `Delete()` sets status to `Revoked`, sets `UpdatedAt` and
`DeletedAt` to the same current time, appends exactly one `UserDeleted`
event, and leaves every other field (id, username, name, email, avatar,
creation time and in particular the `Accounts` list) unchanged. -/
theorem c8_delete_frame (u : User) (now : Nat) :
    (u.delete now).status = Status.revoked
    ∧ (u.delete now).updatedAt = now
    ∧ (u.delete now).deletedAt = now
    ∧ (u.delete now).id = u.id
    ∧ (u.delete now).username = u.username
    ∧ (u.delete now).name = u.name
    ∧ (u.delete now).email = u.email
    ∧ (u.delete now).avatar = u.avatar
    ∧ (u.delete now).createdAt = u.createdAt
    ∧ (u.delete now).accounts = u.accounts
    ∧ (u.delete now).pendingEvents = u.pendingEvents ++ [Event.deleted ⟨u.id, now⟩] :=
  ⟨rfl, rfl, rfl, rfl, rfl, rfl, rfl, rfl, rfl, rfl, rfl⟩

/-- C4 counterexample. `Revoked` is not terminal at the aggregate level:
`Register()` on a revoked user unconditionally overwrites the status with
`Registered`, so an aggregate operation does change the status of a
revoked user to a value other than `Revoked`. -/
theorem c4_counterexample :
    revokedUser.status = Status.revoked
    ∧ (revokedUser.register 5).status ≠ Status.revoked := by
  constructor
  · rfl
  · decide

/-- C4 as amended. `Delete`, `AddSocialAccount` and `RemoveSocialAccount`
never move a revoked user's status away from `Revoked`, but `Register`
and `Activate` unconditionally set the status to `Registered` resp.
`Activated` whatever the previous status was (so `Revoked` is not
enforced as terminal by the aggregate); in the normal flow the status
moves one-directionally `Pending` (at construction) to `Registered` (by
`Register`) to `Activated` (by `Activate`). -/
theorem c4_status_transitions (u : User) (p s : String) (now : Nat)
    (h : u.status = Status.revoked) :
    (u.addSocialAccount p s now).1.status = Status.revoked
    ∧ (u.removeSocialAccount p s now).1.status = Status.revoked
    ∧ (u.delete now).status = Status.revoked
    ∧ (u.register now).status = Status.registered
    ∧ (u.activate now).status = Status.activated
    ∧ (∀ id t un nm em, (NewUser id t un nm em).status = Status.pending) := by
  refine ⟨?_, ?_, rfl, rfl, rfl, fun _ _ _ _ _ => rfl⟩
  · unfold User.addSocialAccount
    by_cases hc : u.hasSocialAccount p s <;> simp [hc, User.addEvent, h]
  · unfold User.removeSocialAccount
    by_cases hl : (removeLoop u.id p s now u.accounts).1.length = u.accounts.length <;>
      simp [hl, h]

/-- Witness for C4's amended theorem at a concrete revoked user. -/
theorem c4_witness :
    (revokedUser.addSocialAccount "google" "g9" 5).1.status = Status.revoked :=
  (c4_status_transitions revokedUser "google" "g9" 5 rfl).1

lemma addSocialAccount_success (u : User) (p s : String) (t : Nat)
    (h : u.hasSocialAccount p s = false) :
    u.addSocialAccount p s t =
      ({ u with
          accounts := u.accounts ++ [NewSocialAccount p s t]
          updatedAt := t
          pendingEvents := u.pendingEvents ++
            [.socialAccountAdded ⟨u.id, NewSocialAccount p s t, t⟩] }, none) := by
  unfold User.addSocialAccount
  simp [h, User.addEvent]

lemma addAccounts_spec (ts : List (String × String × Nat)) :
    ∀ u : User,
      (ts.map (fun x => (x.1, x.2.1))).Nodup →
      (∀ x ∈ ts, u.hasSocialAccount x.1 x.2.1 = false) →
      (addAccounts u ts).pendingEvents = u.pendingEvents ++ ts.map (addedEvent u.id)
      ∧ (addAccounts u ts).accounts
          = u.accounts ++ ts.map (fun x => NewSocialAccount x.1 x.2.1 x.2.2)
      ∧ (addAccounts u ts).id = u.id := by
  induction ts with
  | nil => intro u _ _; simp [addAccounts]
  | cons x rest ih =>
    intro u hnd hhas
    obtain ⟨p, s, t⟩ := x
    have hx : u.hasSocialAccount p s = false := hhas (p, s, t) (by simp)
    have hstep := addSocialAccount_success u p s t hx
    have hstep1 : (u.addSocialAccount p s t).1 =
        { u with
          accounts := u.accounts ++ [NewSocialAccount p s t]
          updatedAt := t
          pendingEvents := u.pendingEvents ++
            [.socialAccountAdded ⟨u.id, NewSocialAccount p s t, t⟩] } := by
      rw [hstep]
    have hnd2 : ((p, s) ∉ rest.map (fun x => (x.1, x.2.1)))
        ∧ (rest.map (fun x => (x.1, x.2.1))).Nodup := by
      rw [List.map_cons] at hnd
      exact List.nodup_cons.mp hnd
    have hnd' := hnd2.2
    have hhead := hnd2.1
    have hhas' : ∀ x ∈ rest,
        ((u.addSocialAccount p s t).1).hasSocialAccount x.1 x.2.1 = false := by
      intro y hy
      rw [hstep1]
      have hyu : u.hasSocialAccount y.1 y.2.1 = false :=
        hhas y (List.mem_cons_of_mem _ hy)
      have hpair : ¬(p = y.1 ∧ s = y.2.1) := by
        intro ⟨hp1, hs1⟩
        exact hhead (by
          refine List.mem_map.mpr ⟨y, hy, ?_⟩
          simp [hp1, hs1])
      unfold User.hasSocialAccount at hyu ⊢
      simp only [List.any_append, hyu, Bool.false_or]
      simp only [List.any_cons, List.any_nil, Bool.or_false, NewSocialAccount]
      by_contra hcon
      simp only [Bool.not_eq_false, Bool.and_eq_true, beq_iff_eq] at hcon
      exact hpair hcon
    have hrest := ih (u.addSocialAccount p s t).1 hnd' hhas'
    obtain ⟨hev, hacc, hid⟩ := hrest
    simp only [addAccounts]
    refine ⟨?_, ?_, ?_⟩
    · rw [hev, hstep1]
      simp [addedEvent]
    · rw [hacc, hstep1]
      simp
    · rw [hid, hstep1]

/-- C2. On a freshly constructed user, the call sequence `Register()`,
`Activate()`, then N `AddSocialAccount` calls with pairwise-distinct
`(provider, socialID)` pairs buffers exactly N + 2 domain events in call
order (the `UserRegistered` snapshot first, then `UserActivated`, then
one `UserSocialAccountAdded` per pair in call order); `Notify()`
publishes exactly that buffer in order and leaves the buffer empty, and a
second `Notify()` publishes nothing and changes nothing. -/
theorem c2_event_order_and_notify (id : String) (idTime : Nat)
    (un nm em : String) (t₁ t₂ : Nat) (ts : List (String × String × Nat))
    (hnd : (ts.map (fun x => (x.1, x.2.1))).Nodup) :
    (addAccounts (((NewUser id idTime un nm em).register t₁).activate t₂) ts).pendingEvents
      = Event.registered ⟨((NewUser id idTime un nm em).register t₁).toUserData⟩
          :: Event.activated ⟨id, Status.activated, t₂⟩ :: ts.map (addedEvent id)
    ∧ (addAccounts (((NewUser id idTime un nm em).register t₁).activate t₂)
        ts).pendingEvents.length = ts.length + 2
    ∧ (addAccounts (((NewUser id idTime un nm em).register t₁).activate t₂) ts).notify.1
      = (addAccounts (((NewUser id idTime un nm em).register t₁).activate t₂)
          ts).pendingEvents
    ∧ (addAccounts (((NewUser id idTime un nm em).register t₁).activate t₂)
        ts).notify.2.pendingEvents = []
    ∧ (addAccounts (((NewUser id idTime un nm em).register t₁).activate t₂)
        ts).notify.2.notify.1 = []
    ∧ (addAccounts (((NewUser id idTime un nm em).register t₁).activate t₂)
        ts).notify.2.notify.2
      = (addAccounts (((NewUser id idTime un nm em).register t₁).activate t₂)
          ts).notify.2 := by
  have hhas : ∀ x ∈ ts,
      (((NewUser id idTime un nm em).register t₁).activate t₂).hasSocialAccount
        x.1 x.2.1 = false :=
    fun _ _ => rfl
  obtain ⟨hev, -, -⟩ :=
    addAccounts_spec ts (((NewUser id idTime un nm em).register t₁).activate t₂) hnd hhas
  have hp1 : (addAccounts (((NewUser id idTime un nm em).register t₁).activate t₂)
      ts).pendingEvents
      = Event.registered ⟨((NewUser id idTime un nm em).register t₁).toUserData⟩
          :: Event.activated ⟨id, Status.activated, t₂⟩ :: ts.map (addedEvent id) := by
    rw [hev]; rfl
  refine ⟨hp1, ?_, rfl, rfl, rfl, rfl⟩
  rw [hp1]
  simp [List.length_cons]

/-- Witness for C2 at a concrete input: two distinct pairs yield a
buffer of four events. -/
theorem c2_witness :
    (addAccounts (((NewUser "u1" 1 "mirror" "Lin" "m@x.io").register 2).activate 3)
        [("google", "g9", 4), ("line", "l7", 5)]).pendingEvents.length = 2 + 2 := by
  have h := c2_event_order_and_notify "u1" 1 "mirror" "Lin" "m@x.io" 2 3
    [("google", "g9", 4), ("line", "l7", 5)] (by decide)
  exact h.2.1

/-- C10. The `Register` use-case on a username with no existing user
returns the freshly constructed user unchanged: its status is `Pending`,
its pending-event buffer is empty (`NewUser` emits no event and the
use-case never invokes the aggregate's `Register`), and the repository
state after the call is identical to the state before it (`Store` is
never called). -/
theorem c10_service_register (db : DB) (id : String) (t : Nat) (un nm em : String)
    (h : db.findByUsername un = none) :
    serviceRegister db id t un nm em = (db, Except.ok (NewUser id t un nm em))
    ∧ (NewUser id t un nm em).status = Status.pending
    ∧ (NewUser id t un nm em).pendingEvents = [] := by
  refine ⟨?_, rfl, rfl⟩
  unfold serviceRegister
  rw [h]
  rfl

/-- Witness for C10 on the empty repository. -/
theorem c10_witness :
    serviceRegister ⟨[], []⟩ "u1" 1 "mirror" "Lin" "m@x.io"
      = (⟨[], []⟩, Except.ok (NewUser "u1" 1 "mirror" "Lin" "m@x.io")) :=
  (c10_service_register ⟨[], []⟩ "u1" 1 "mirror" "Lin" "m@x.io" rfl).1

/-! ## Repository-level lemmas -/

lemma insertAccounts_eq (new rows : List AccountRow) :
    insertAccounts rows new = rows ++ filterNew rows new := by
  induction new generalizing rows with
  | nil => simp [insertAccounts, filterNew]
  | cons r rest ih =>
    unfold insertAccounts filterNew
    by_cases hc : rows.any (keyMatch r) = true
    · rw [if_pos hc, if_pos hc, ih]
    · rw [if_neg hc, if_neg hc, ih]
      simp

lemma filterNew_of_fresh (new rows : List AccountRow)
    (hrows : ∀ r ∈ new, rows.any (keyMatch r) = false)
    (hnd : (new.map (fun r => (r.userID, r.socialID))).Nodup) :
    filterNew rows new = new := by
  induction new generalizing rows with
  | nil => rfl
  | cons r rest ih =>
    have hr : rows.any (keyMatch r) = false := hrows r (by simp)
    have hnd2 : ((r.userID, r.socialID) ∉ rest.map (fun q => (q.userID, q.socialID)))
        ∧ (rest.map (fun q => (q.userID, q.socialID))).Nodup := by
      rw [List.map_cons] at hnd
      exact List.nodup_cons.mp hnd
    simp only [filterNew, hr, Bool.false_eq_true, if_false]
    congr 1
    refine ih (rows ++ [r]) ?_ hnd2.2
    intro q hq
    rw [List.any_append, hrows q (List.mem_cons_of_mem _ hq)]
    simp only [Bool.false_or, List.any_cons, List.any_nil, Bool.or_false]
    by_contra hcon
    simp only [Bool.not_eq_false, keyMatch, Bool.and_eq_true, beq_iff_eq] at hcon
    exact hnd2.1 (List.mem_map.mpr ⟨q, hq, by simp [hcon.1, hcon.2]⟩)

lemma filterNew_append_drop (l rows : List AccountRow) (r : AccountRow)
    (h : (rows ++ filterNew rows l).any (keyMatch r) = true) :
    filterNew rows (l ++ [r]) = filterNew rows l := by
  induction l generalizing rows with
  | nil =>
    simp only [filterNew, List.append_nil] at h
    simp only [List.nil_append, filterNew, h, if_true]
  | cons x rest ih =>
    by_cases hx : rows.any (keyMatch x) = true
    · simp only [List.cons_append, filterNew, hx, if_true] at h ⊢
      exact ih rows h
    · rw [Bool.not_eq_true] at hx
      simp only [List.cons_append, filterNew, hx, Bool.false_eq_true, if_false] at h ⊢
      congr 1
      refine ih (rows ++ [x]) ?_
      have hre : rows ++ x :: filterNew (rows ++ [x]) rest
          = (rows ++ [x]) ++ filterNew (rows ++ [x]) rest := by
        rw [List.append_assoc, List.singleton_append]
      rw [hre] at h
      exact h

lemma find?_append_of_none {α : Type} (l₁ l₂ : List α) (p : α → Bool)
    (h : ∀ x ∈ l₁, p x = false) : (l₁ ++ l₂).find? p = l₂.find? p := by
  induction l₁ with
  | nil => simp
  | cons x rest ih =>
    rw [List.cons_append, List.find?_cons_of_neg, ih]
    · exact fun y hy => h y (List.mem_cons_of_mem _ hy)
    · simp [h x (by simp)]

lemma fillTime_ne_zero (t now : Nat) (h : now ≠ 0) : fillTime t now ≠ 0 := by
  unfold fillTime
  by_cases ht : t = 0
  · rw [if_pos ht]; exact h
  · rw [if_neg ht]; exact ht

lemma fillAccount_noop (a : SocialAccount) (now : Nat)
    (h1 : a.createdAt ≠ 0) (h2 : a.updatedAt ≠ 0) : fillAccountTimes a now = a := by
  unfold fillAccountTimes fillTime
  rw [if_neg h1, if_neg h2]

lemma map_fillAccount_noop (l : List SocialAccount) (now : Nat)
    (h : ∀ x ∈ l, x.createdAt ≠ 0 ∧ x.updatedAt ≠ 0) :
    l.map (fun x => fillAccountTimes x now) = l := by
  induction l with
  | nil => rfl
  | cons x rest ih =>
    rw [List.map_cons, fillAccount_noop x now (h x (by simp)).1 (h x (by simp)).2,
      ih fun y hy => h y (List.mem_cons_of_mem _ hy)]

lemma fillRow_noop (r : AccountRow) (now : Nat)
    (h1 : r.createdAt ≠ 0) (h2 : r.updatedAt ≠ 0) : fillRowTimes r now = r := by
  unfold fillRowTimes fillTime
  rw [if_neg h1, if_neg h2]

lemma map_social_fill (l : List SocialAccount) (now : Nat) :
    (l.map (fun x => fillAccountTimes x now)).map (fun x => x.socialID)
      = l.map (fun x => x.socialID) := by
  rw [List.map_map]
  rfl

lemma find_implies_live_any (db : DB) (id : String) (u : UserData)
    (h : db.find id = some u) :
    db.users.any (fun x => x.id == id && x.deletedAt == 0) = true := by
  unfold DB.find at h
  cases hf : db.users.find? (fun r => r.id == id && r.deletedAt == 0) with
  | none => rw [hf] at h; simp at h
  | some r =>
    have hmem := List.mem_of_find?_eq_some hf
    have hpred := List.find?_some hf
    exact List.any_eq_true.mpr ⟨r, hmem, hpred⟩

lemma map_save_find (l : List UserRow) (r : UserRow) (now : Nat) (id : String)
    (hid : r.id = id) (hr : r.deletedAt = 0)
    (hex : l.any (fun x => x.id == id && x.deletedAt == 0) = true) :
    (l.map (fun x => if x.id == id && x.deletedAt == 0
        then { r with updatedAt := now } else x)).find?
      (fun x => x.id == id && x.deletedAt == 0) = some { r with updatedAt := now } := by
  induction l with
  | nil => simp at hex
  | cons x rest ih =>
    by_cases hx : (x.id == id && x.deletedAt == 0) = true
    · simp only [List.map_cons, hx, if_true]
      rw [List.find?_cons_of_pos]
      simp [hid, hr]
    · rw [Bool.not_eq_true] at hx
      simp only [List.map_cons, hx, Bool.false_eq_true, if_false]
      rw [List.find?_cons_of_neg]
      · refine ih ?_
        simp only [List.any_cons, hx, Bool.false_or] at hex
        exact hex
      · simp [hx]

lemma map_save_idem (l : List UserRow) (r : UserRow) (now : Nat) (id : String)
    (hid : r.id = id) (hr : r.deletedAt = 0) :
    ((l.map (fun x => if x.id == id && x.deletedAt == 0
        then { r with updatedAt := now } else x)).map
      (fun x => if x.id == id && x.deletedAt == 0
        then { r with updatedAt := now } else x))
      = l.map (fun x => if x.id == id && x.deletedAt == 0
          then { r with updatedAt := now } else x) := by
  induction l with
  | nil => rfl
  | cons x rest ih =>
    by_cases hx : (x.id == id && x.deletedAt == 0) = true
    · simp only [List.map_cons, hx, if_true]
      have hw : (({ r with updatedAt := now } : UserRow).id == id
          && ({ r with updatedAt := now } : UserRow).deletedAt == 0) = true := by
        simp [hid, hr]
      simp only [hw, if_true]
      rw [ih]
    · rw [Bool.not_eq_true] at hx
      simp only [List.map_cons, hx, Bool.false_eq_true, if_false]
      rw [ih]

lemma store_live_ok (db : DB) (u : UserData) (now : Nat)
    (hex : db.users.any (fun x => x.id == u.id && x.deletedAt == 0) = true) :
    db.store u now = .ok
      { users := db.users.map (fun x => if x.id == u.id && x.deletedAt == 0
          then { NewUserRow u with updatedAt := now } else x)
        accounts := insertAccounts (db.accounts.filter (fun r => !(r.userID == u.id)))
          (u.accounts.map (fun a => fillRowTimes (NewAccountRow u.id a) now)) } := by
  have hex' : db.users.any (fun x =>
      x.id == (NewUserRow u).id && x.deletedAt == 0) = true := hex
  unfold DB.store saveUser
  rw [if_pos hex']
  rfl

lemma any_live_false_of_any_id_false (l : List UserRow) (id : String)
    (h : l.any (fun x => x.id == id) = false) :
    l.any (fun x => x.id == id && x.deletedAt == 0) = false := by
  rw [List.any_eq_false] at h ⊢
  intro x hx
  have hxf := h x hx
  simp only [Bool.not_eq_true] at hxf ⊢
  simp [hxf]

lemma store_create_ok (db : DB) (u : UserData) (now : Nat)
    (hnone : db.users.any (fun x => x.id == u.id) = false) :
    db.store u now = .ok
      { users := db.users ++ [{ NewUserRow u with
          createdAt := fillTime u.createdAt now
          updatedAt := fillTime u.updatedAt now }]
        accounts := insertAccounts (db.accounts.filter (fun r => !(r.userID == u.id)))
          (u.accounts.map (fun a => fillRowTimes (NewAccountRow u.id a) now)) } := by
  have hlive : db.users.any (fun x =>
      x.id == (NewUserRow u).id && x.deletedAt == 0) = false :=
    any_live_false_of_any_id_false db.users u.id hnone
  have hnone' : db.users.any (fun x => x.id == (NewUserRow u).id) = false := hnone
  have h1 : ¬ (db.users.any (fun x =>
      x.id == (NewUserRow u).id && x.deletedAt == 0) = true) := by
    rw [hlive]; simp
  have h2 : ¬ (db.users.any (fun x => x.id == (NewUserRow u).id) = true) := by
    rw [hnone']; simp
  unfold DB.store saveUser
  rw [if_neg h1, if_neg h2]
  rfl

lemma kept_any_false (rows : List AccountRow) (uid : String) (r : AccountRow)
    (hru : r.userID = uid) :
    (rows.filter (fun x => !(x.userID == uid))).any (keyMatch r) = false := by
  rw [List.any_eq_false]
  intro x hx
  have hxid := (List.mem_filter.mp hx).2
  simp only [Bool.not_eq_eq_eq_not, Bool.not_true, beq_eq_false_iff_ne, ne_eq] at hxid
  simp [keyMatch, hru, hxid]

lemma candidates_keys_nodup (uid : String) (now : Nat) (l : List SocialAccount)
    (hnd : (l.map (fun a => a.socialID)).Nodup) :
    ((l.map (fun a => fillRowTimes (NewAccountRow uid a) now)).map
      (fun r => (r.userID, r.socialID))).Nodup := by
  rw [List.map_map]
  have h1 : ((fun r : AccountRow => (r.userID, r.socialID))
        ∘ fun a => fillRowTimes (NewAccountRow uid a) now)
      = fun a : SocialAccount => ((uid : String), a.socialID) := by
    funext a; rfl
  rw [h1]
  have h2 : (fun a : SocialAccount => ((uid : String), a.socialID))
      = (Prod.mk uid) ∘ (fun a : SocialAccount => a.socialID) := rfl
  rw [h2, ← List.map_map]
  refine List.Nodup.map ?_ hnd
  intro x y hxy
  exact (Prod.mk.injEq _ _ _ _ |>.mp hxy).2

lemma insert_kept (rows : List AccountRow) (uid : String) (now : Nat)
    (l : List SocialAccount)
    (hnd : (l.map (fun a => a.socialID)).Nodup) :
    insertAccounts (rows.filter (fun x => !(x.userID == uid)))
        (l.map (fun a => fillRowTimes (NewAccountRow uid a) now))
      = rows.filter (fun x => !(x.userID == uid))
          ++ l.map (fun a => fillRowTimes (NewAccountRow uid a) now) := by
  rw [insertAccounts_eq]
  congr 1
  refine filterNew_of_fresh _ _ ?_ (candidates_keys_nodup uid now l hnd)
  intro r hr
  obtain ⟨a, _, rfl⟩ := List.mem_map.mp hr
  exact kept_any_false rows uid _ rfl

lemma store_live_find (db : DB) (u : UserData) (now : Nat) (db' : DB)
    (hdel : u.deletedAt = 0)
    (hnd : (u.accounts.map (fun a => a.socialID)).Nodup)
    (hlive : ∀ a ∈ u.accounts, a.deletedAt = 0)
    (hex : db.users.any (fun x => x.id == u.id && x.deletedAt == 0) = true)
    (h : db.store u now = .ok db') :
    db'.find u.id = some { u with
      avatar := ""
      accounts := u.accounts.map (fun a => fillAccountTimes a now)
      updatedAt := now } := by
  have hlit := store_live_ok db u now hex
  rw [h] at hlit
  injection hlit with hdb
  subst hdb
  unfold DB.find DB.preload
  dsimp only
  rw [map_save_find db.users (NewUserRow u) now u.id rfl hdel hex, Option.map_some']
  rw [insert_kept db.accounts u.id now u.accounts hnd, List.filter_append]
  have h1 : (db.accounts.filter (fun x => !(x.userID == u.id))).filter
      (fun r => r.userID == u.id && r.deletedAt == 0) = [] := by
    rw [List.filter_eq_nil_iff]
    intro x hx
    have hxid := (List.mem_filter.mp hx).2
    simp only [Bool.not_eq_eq_eq_not, Bool.not_true, beq_eq_false_iff_ne, ne_eq] at hxid
    simp [hxid]
  have h2 : (u.accounts.map (fun a => fillRowTimes (NewAccountRow u.id a) now)).filter
      (fun r => r.userID == u.id && r.deletedAt == 0)
      = u.accounts.map (fun a => fillRowTimes (NewAccountRow u.id a) now) := by
    rw [List.filter_eq_self]
    intro r hr
    obtain ⟨a, ha, rfl⟩ := List.mem_map.mp hr
    simp [fillRowTimes, fillTime, NewAccountRow, hlive a ha]
  rw [h1, h2, List.nil_append, List.map_map]
  rfl

lemma store_create_find (db : DB) (u : UserData) (now : Nat) (db' : DB)
    (hdel : u.deletedAt = 0)
    (hnd : (u.accounts.map (fun a => a.socialID)).Nodup)
    (hlive : ∀ a ∈ u.accounts, a.deletedAt = 0)
    (hnone : db.users.any (fun x => x.id == u.id) = false)
    (h : db.store u now = .ok db') :
    db'.find u.id = some { u with
      avatar := ""
      accounts := u.accounts.map (fun a => fillAccountTimes a now)
      createdAt := fillTime u.createdAt now
      updatedAt := fillTime u.updatedAt now } := by
  have hlit := store_create_ok db u now hnone
  rw [h] at hlit
  injection hlit with hdb
  subst hdb
  unfold DB.find DB.preload
  dsimp only
  have hpre : ∀ x ∈ db.users,
      (fun r : UserRow => r.id == u.id && r.deletedAt == 0) x = false := by
    intro x hx
    have hxf := (List.any_eq_false.mp hnone) x hx
    simp only [Bool.not_eq_true] at hxf
    simp [hxf]
  rw [find?_append_of_none _ _ _ hpre]
  rw [List.find?_cons_of_pos]
  · rw [Option.map_some']
    rw [insert_kept db.accounts u.id now u.accounts hnd, List.filter_append]
    have h1 : (db.accounts.filter (fun x => !(x.userID == u.id))).filter
        (fun r => r.userID == u.id && r.deletedAt == 0) = [] := by
      rw [List.filter_eq_nil_iff]
      intro x hx
      have hxid := (List.mem_filter.mp hx).2
      simp only [Bool.not_eq_eq_eq_not, Bool.not_true, beq_eq_false_iff_ne, ne_eq] at hxid
      simp [hxid]
    have h2 : (u.accounts.map (fun a => fillRowTimes (NewAccountRow u.id a) now)).filter
        (fun r => r.userID == u.id && r.deletedAt == 0)
        = u.accounts.map (fun a => fillRowTimes (NewAccountRow u.id a) now) := by
      rw [List.filter_eq_self]
      intro r hr
      obtain ⟨a, ha, rfl⟩ := List.mem_map.mp hr
      simp [fillRowTimes, fillTime, NewAccountRow, hlive a ha]
    rw [h1, h2, List.nil_append, List.map_map]
    rfl
  · simp [NewUserRow, hdel]

lemma store_live_store_self (db : DB) (u : UserData) (now : Nat)
    (hdel : u.deletedAt = 0)
    (hnd : (u.accounts.map (fun a => a.socialID)).Nodup)
    (hex : db.users.any (fun x => x.id == u.id && x.deletedAt == 0) = true)
    (db' : DB) (h : db.store u now = .ok db') :
    db'.store u now = .ok db' := by
  have hlit := store_live_ok db u now hex
  rw [h] at hlit
  injection hlit with hdb
  subst hdb
  have hex2 : (db.users.map (fun x => if x.id == u.id && x.deletedAt == 0
      then { NewUserRow u with updatedAt := now } else x)).any
      (fun x => x.id == u.id && x.deletedAt == 0) = true := by
    obtain ⟨x, hx, hpx⟩ := List.any_eq_true.mp hex
    refine List.any_eq_true.mpr ⟨{ NewUserRow u with updatedAt := now },
      List.mem_map.mpr ⟨x, hx, by simp [hpx]⟩, ?_⟩
    simp [NewUserRow, hdel]
  rw [store_live_ok _ u now hex2]
  congr 2
  · exact map_save_idem db.users (NewUserRow u) now u.id rfl hdel
  · rw [insert_kept db.accounts u.id now u.accounts hnd, List.filter_append]
    have h1 : (db.accounts.filter (fun x => !(x.userID == u.id))).filter
        (fun x => !(x.userID == u.id))
        = db.accounts.filter (fun x => !(x.userID == u.id)) := by
      rw [List.filter_filter]
      simp [Bool.and_self]
    have h2 : (u.accounts.map (fun a => fillRowTimes (NewAccountRow u.id a) now)).filter
        (fun x => !(x.userID == u.id)) = [] := by
      rw [List.filter_eq_nil_iff]
      intro r hr
      obtain ⟨a, _, rfl⟩ := List.mem_map.mp hr
      simp [fillRowTimes, NewAccountRow]
    rw [h1, h2, List.append_nil]
    exact insert_kept db.accounts u.id now u.accounts hnd

lemma find_accounts_preload (db : DB) (id : String) (u : UserData)
    (h : db.find id = some u) : u.accounts = db.preload id := by
  unfold DB.find at h
  cases hf : db.users.find? (fun r => r.id == id && r.deletedAt == 0) with
  | none => rw [hf] at h; simp at h
  | some r =>
    rw [hf, Option.map_some'] at h
    injection h with h2
    rw [← h2]
    rfl

lemma preload_congr (db1 db2 : DB) (id : String) (h : db1.accounts = db2.accounts) :
    db1.preload id = db2.preload id := by
  unfold DB.preload
  rw [h]

lemma pairCount_map_fill (l : List SocialAccount) (now : Nat) (p s : String) :
    pairCount (l.map (fun x => fillAccountTimes x now)) p s = pairCount l p s := by
  unfold pairCount
  induction l with
  | nil => rfl
  | cons x rest ih =>
    by_cases hx : (x.provider == p && x.socialID == s) = true
    · have hfx : ((fillAccountTimes x now).provider == p
          && (fillAccountTimes x now).socialID == s) = true := hx
      simp only [List.map_cons, List.filter_cons, hx, hfx, if_true, List.length_cons]
      rw [ih]
    · rw [Bool.not_eq_true] at hx
      have hfx : ((fillAccountTimes x now).provider == p
          && (fillAccountTimes x now).socialID == s) = false := hx
      simp only [List.map_cons, List.filter_cons, hx, hfx, Bool.false_eq_true, if_false]
      rw [ih]

lemma pairCount_fresh_append (l : List SocialAccount) (a : SocialAccount)
    (hfresh : ∀ x ∈ l, x.socialID ≠ a.socialID) :
    pairCount (l ++ [a]) a.provider a.socialID = 1 := by
  unfold pairCount
  rw [List.filter_append]
  have hz : l.filter (fun x => x.provider == a.provider && x.socialID == a.socialID)
      = [] := by
    rw [List.filter_eq_nil_iff]
    intro x hx
    simp only [Bool.and_eq_true, beq_iff_eq]
    intro hcon
    exact hfresh x hx hcon.2
  rw [hz, List.nil_append]
  simp

lemma registered_handler_eq (db : DB) (e : UserRegisteredEvent) (now : Nat) (db' : DB)
    (hok : db.store e.user now = .ok db') :
    UserRegisteredHandler db e now = (db', none) := by
  unfold UserRegisteredHandler
  rw [hok]

lemma activated_handler_eq (db : DB) (e : UserActivatedEvent) (now : Nat)
    (u : UserData) (db' : DB) (hu : db.find e.userID = some u)
    (hok : db.store { u with status := e.status, updatedAt := e.occuredAt } now
      = .ok db') :
    UserActivatedHandler db e now = (db', none) := by
  unfold UserActivatedHandler
  simp only [hu, hok]

lemma added_handler_eq (db : DB) (e : UserSocialAccountAddedEvent) (now : Nat)
    (u : UserData) (db' : DB) (hu : db.find e.userID = some u)
    (hok : db.store { u with
        accounts := u.accounts ++ [e.account]
        updatedAt := e.occuredAt } now = .ok db') :
    UserSocialAccountAddedHandler db e now = (db', none) := by
  unfold UserSocialAccountAddedHandler
  simp only [hu, hok]

lemma removed_handler_eq (db : DB) (e : UserSocialAccountRemovedEvent) (now : Nat)
    (u : UserData) (db' : DB) (hu : db.find e.userID = some u)
    (hok : db.store { u with
        accounts := u.accounts.filter (fun a =>
          !(a.provider == e.account.provider && a.socialID == e.account.socialID))
        updatedAt := e.occuredAt } now = .ok db') :
    UserSocialAccountRemovedHandler db e now = (db', none) := by
  unfold UserSocialAccountRemovedHandler
  simp only [hu, hok]

lemma find_facts (db : DB) (id : String) (u : UserData) (h : db.find id = some u) :
    u.id = id ∧ u.avatar = "" ∧ u.deletedAt = 0 ∧ ∀ a ∈ u.accounts, a.deletedAt = 0 := by
  unfold DB.find at h
  cases hf : db.users.find? (fun r => r.id == id && r.deletedAt == 0) with
  | none => rw [hf] at h; simp at h
  | some r =>
    rw [hf, Option.map_some'] at h
    have hpred := List.find?_some hf
    simp only [Bool.and_eq_true, beq_iff_eq] at hpred
    obtain ⟨hid, hdel⟩ := hpred
    have hu : u = r.reconstitute (db.preload id) := by
      injection h with h2
      exact h2.symm
    subst hu
    refine ⟨hid, rfl, hdel, ?_⟩
    intro a ha
    obtain ⟨x, hx, rfl⟩ := List.mem_map.mp ha
    have := (List.mem_filter.mp hx).2
    simp only [Bool.and_eq_true, beq_iff_eq] at this
    exact this.2

lemma nodup_social_of_key (l : List AccountRow) (id : String)
    (hid : ∀ r ∈ l, r.userID = id)
    (h : (l.map (fun r => (r.userID, r.socialID))).Nodup) :
    (l.map (fun r => r.socialID)).Nodup := by
  induction l with
  | nil => simp
  | cons r rest ih =>
    rw [List.map_cons, List.nodup_cons] at h ⊢
    refine ⟨?_, ih (fun x hx => hid x (List.mem_cons_of_mem _ hx)) h.2⟩
    intro hmem
    obtain ⟨x, hx, hxs⟩ := List.mem_map.mp hmem
    refine h.1 (List.mem_map.mpr ⟨x, hx, ?_⟩)
    rw [hid x (List.mem_cons_of_mem _ hx), hid r (by simp), hxs]

lemma find_accounts_nodup (db : DB) (id : String) (u : UserData) (hwf : WF db)
    (h : db.find id = some u) :
    (u.accounts.map (fun a => a.socialID)).Nodup := by
  unfold DB.find at h
  cases hf : db.users.find? (fun r => r.id == id && r.deletedAt == 0) with
  | none => rw [hf] at h; simp at h
  | some r =>
    rw [hf, Option.map_some'] at h
    have hu : u = r.reconstitute (db.preload id) := by
      injection h with h2
      exact h2.symm
    subst hu
    show (((db.accounts.filter _).map AccountRow.reconstitute).map _).Nodup
    rw [List.map_map]
    have hfun : ((fun a : SocialAccount => a.socialID) ∘ AccountRow.reconstitute)
        = (fun r : AccountRow => r.socialID) := by
      funext x; rfl
    rw [hfun]
    refine nodup_social_of_key _ id ?_ ?_
    · intro x hx
      have := (List.mem_filter.mp hx).2
      simp only [Bool.and_eq_true, beq_iff_eq] at this
      exact this.1
    · exact ((List.filter_sublist _).map _).nodup hwf.2

/-- C6 counterexample. The claim's assertion that the re-read user shows
the event's `OccurredAt` as `UpdatedAt`, and that a second delivery
leaves the state literally equal, are both false of the program: GORM's
`AutoUpdateTime` overwrites the `users` row's `updated_at` with the write
clock on every update, so against the event's `OccurredAt = 5` the
re-read shows the clock (9, then 10 after a replay at a later clock). -/
theorem c6_counterexample :
    ((UserActivatedHandler sampleDB ⟨"u1", Status.activated, 5⟩ 9).1.find "u1").map
        (fun w => w.updatedAt) = some 9
    ∧ ((UserActivatedHandler (UserActivatedHandler sampleDB
          ⟨"u1", Status.activated, 5⟩ 9).1 ⟨"u1", Status.activated, 5⟩ 10).1.find
        "u1").map (fun w => w.updatedAt) = some 10 := by
  decide

/-- C6 as amended. `UserActivatedHandler` returns the repository's
not-found error ("user not found") and leaves the repository unchanged
when no user with the event's id exists; when the user exists it sets
that user's status from the event and re-stores it, but the re-read
user's `UpdatedAt` is the repository's write clock `now`, not the event's
`OccurredAt` (GORM `AutoUpdateTime` overwrites it on update); applying
the same event a second time at the same write clock returns no error and
leaves the repository state unchanged.  The stored accounts are assumed
to carry nonzero timestamps, as every row the repository itself wrote
does. -/
theorem c6_user_activated_handler (db : DB) (e : UserActivatedEvent) (now : Nat)
    (hwf : WF db) :
    (db.find e.userID = none →
      UserActivatedHandler db e now = (db, some "user not found"))
    ∧ ∀ u, db.find e.userID = some u →
        (∀ acc ∈ u.accounts, acc.createdAt ≠ 0 ∧ acc.updatedAt ≠ 0) →
        (UserActivatedHandler db e now).2 = none
        ∧ (UserActivatedHandler db e now).1.find e.userID
          = some { u with status := e.status, updatedAt := now }
        ∧ UserActivatedHandler (UserActivatedHandler db e now).1 e now
          = ((UserActivatedHandler db e now).1, none) := by
  constructor
  · intro h
    unfold UserActivatedHandler
    rw [h]
  · intro u hu hts
    obtain ⟨hid, hav, hdel, hlive⟩ := find_facts db e.userID u hu
    have hnd := find_accounts_nodup db e.userID u hwf hu
    set u1 : UserData := { u with status := e.status, updatedAt := e.occuredAt }
    have hdel1 : u1.deletedAt = 0 := hdel
    have hlive1 : ∀ a ∈ u1.accounts, a.deletedAt = 0 := hlive
    have hnd1 : (u1.accounts.map (fun a => a.socialID)).Nodup := hnd
    have hex1 : db.users.any (fun x => x.id == u1.id && x.deletedAt == 0) = true := by
      rw [show u1.id = e.userID from hid]
      exact find_implies_live_any db e.userID u hu
    obtain ⟨db1, hok1⟩ : ∃ db1, db.store u1 now = .ok db1 :=
      ⟨_, store_live_ok db u1 now hex1⟩
    have h1 : UserActivatedHandler db e now = (db1, none) :=
      activated_handler_eq db e now u db1 hu hok1
    have hfind1 : db1.find e.userID
        = some { u with status := e.status, updatedAt := now } := by
      have h2 := store_live_find db u1 now db1 hdel1 hnd1 hlive1 hex1 hok1
      rw [map_fillAccount_noop u1.accounts now hts] at h2
      rw [show ("" : String) = u1.avatar from hav.symm] at h2
      conv at h2 =>
        lhs
        rw [show u1.id = e.userID from hid]
      exact h2
    have hok2 : db1.store u1 now = .ok db1 :=
      store_live_store_self db u1 now hdel1 hnd1 hex1 db1 hok1
    have h3 : UserActivatedHandler db1 e now = (db1, none) :=
      activated_handler_eq db1 e now { u with status := e.status, updatedAt := now }
        db1 hfind1 hok2
    exact ⟨by rw [h1], by rw [h1]; exact hfind1, by rw [h1]; exact h3⟩

/-- C9 counterexample. The removed-handler claim as written asserts the
re-read user carries the event's `OccurredAt` as `UpdatedAt` and that a
redelivery leaves the state literally equal; both are false of the
program for the same reason as C6: GORM's `AutoUpdateTime` overwrites
`updated_at` with the write clock on every update, so against the event's
`OccurredAt = 6` the re-read shows the clock (9, then 10 after a replay
at a later clock). -/
theorem c9_counterexample :
    ((UserSocialAccountRemovedHandler sampleDB sampleRemovedEvent 9).1.find "u1").map
        (fun w => w.updatedAt) = some 9
    ∧ ((UserSocialAccountRemovedHandler (UserSocialAccountRemovedHandler sampleDB
          sampleRemovedEvent 9).1 sampleRemovedEvent 10).1.find "u1").map
        (fun w => w.updatedAt) = some 10 := by
  decide

/-- C9 as amended. The `UserSocialAccountRemovedHandler` projection
handler removes from the stored user's account set every account matching
the event's `(Provider, SocialID)` pair; the re-read user's `UpdatedAt`
is the repository's write clock `now`, not the event's `OccurredAt`
(GORM `AutoUpdateTime`); applying it a second time with the same event at
the same write clock — when the account is already absent — returns no
error and leaves the repository state unchanged.  The stored accounts are
assumed to carry nonzero timestamps, as every row the repository itself
wrote does. -/
theorem c9_social_account_removed_handler (db : DB) (e : UserSocialAccountRemovedEvent)
    (now : Nat) (hwf : WF db) :
    ∀ u, db.find e.userID = some u →
      (∀ acc ∈ u.accounts, acc.createdAt ≠ 0 ∧ acc.updatedAt ≠ 0) →
      (UserSocialAccountRemovedHandler db e now).2 = none
      ∧ (UserSocialAccountRemovedHandler db e now).1.find e.userID
        = some { u with
            accounts := u.accounts.filter (fun a =>
              !(a.provider == e.account.provider && a.socialID == e.account.socialID))
            updatedAt := now }
      ∧ UserSocialAccountRemovedHandler
          (UserSocialAccountRemovedHandler db e now).1 e now
        = ((UserSocialAccountRemovedHandler db e now).1, none) := by
  intro u hu hts
  obtain ⟨hid, hav, hdel, hlive⟩ := find_facts db e.userID u hu
  have hnd := find_accounts_nodup db e.userID u hwf hu
  set u1 : UserData := { u with
      accounts := u.accounts.filter (fun a =>
        !(a.provider == e.account.provider && a.socialID == e.account.socialID))
      updatedAt := e.occuredAt }
  have hdel1 : u1.deletedAt = 0 := hdel
  have hlive1 : ∀ a ∈ u1.accounts, a.deletedAt = 0 := by
    intro a ha
    have ha2 : a ∈ u.accounts.filter (fun a =>
        !(a.provider == e.account.provider && a.socialID == e.account.socialID)) := ha
    exact hlive a (List.mem_filter.mp ha2).1
  have hts1 : ∀ a ∈ u1.accounts, a.createdAt ≠ 0 ∧ a.updatedAt ≠ 0 := by
    intro a ha
    have ha2 : a ∈ u.accounts.filter (fun a =>
        !(a.provider == e.account.provider && a.socialID == e.account.socialID)) := ha
    exact hts a (List.mem_filter.mp ha2).1
  have hnd1 : (u1.accounts.map (fun a => a.socialID)).Nodup := by
    show ((u.accounts.filter _).map _).Nodup
    exact ((List.filter_sublist _).map _).nodup hnd
  have hex1 : db.users.any (fun x => x.id == u1.id && x.deletedAt == 0) = true := by
    rw [show u1.id = e.userID from hid]
    exact find_implies_live_any db e.userID u hu
  obtain ⟨db1, hok1⟩ : ∃ db1, db.store u1 now = .ok db1 :=
    ⟨_, store_live_ok db u1 now hex1⟩
  have h1 : UserSocialAccountRemovedHandler db e now = (db1, none) :=
    removed_handler_eq db e now u db1 hu hok1
  have hfind1 : db1.find e.userID = some { u with
      accounts := u.accounts.filter (fun a =>
        !(a.provider == e.account.provider && a.socialID == e.account.socialID))
      updatedAt := now } := by
    have h2 := store_live_find db u1 now db1 hdel1 hnd1 hlive1 hex1 hok1
    rw [map_fillAccount_noop u1.accounts now hts1] at h2
    rw [show ("" : String) = u1.avatar from hav.symm] at h2
    conv at h2 =>
      lhs
      rw [show u1.id = e.userID from hid]
    exact h2
  have hok2 : db1.store u1 now = .ok db1 :=
    store_live_store_self db u1 now hdel1 hnd1 hex1 db1 hok1
  have hfil : ({ u with
      accounts := u.accounts.filter (fun a =>
        !(a.provider == e.account.provider && a.socialID == e.account.socialID))
      updatedAt := now } : UserData).accounts.filter (fun a =>
        !(a.provider == e.account.provider && a.socialID == e.account.socialID))
      = u.accounts.filter (fun a =>
        !(a.provider == e.account.provider && a.socialID == e.account.socialID)) := by
    show (u.accounts.filter _).filter _ = u.accounts.filter _
    rw [List.filter_filter]
    simp [Bool.and_self]
  have hok2' : db1.store { { u with
        accounts := u.accounts.filter (fun a =>
          !(a.provider == e.account.provider && a.socialID == e.account.socialID))
        updatedAt := now } with
      accounts := ({ u with
        accounts := u.accounts.filter (fun a =>
          !(a.provider == e.account.provider && a.socialID == e.account.socialID))
        updatedAt := now } : UserData).accounts.filter (fun a =>
          !(a.provider == e.account.provider && a.socialID == e.account.socialID))
      updatedAt := e.occuredAt } now = .ok db1 := by
    rw [hfil]
    exact hok2
  have h3 : UserSocialAccountRemovedHandler db1 e now = (db1, none) :=
    removed_handler_eq db1 e now { u with
        accounts := u.accounts.filter (fun a =>
          !(a.provider == e.account.provider && a.socialID == e.account.socialID))
        updatedAt := now } db1 hfind1 hok2'
  exact ⟨by rw [h1], by rw [h1]; exact hfind1, by rw [h1]; exact h3⟩

lemma delete_find_none (db : DB) (v : UserData) (now : Nat) (hnow : now ≠ 0) :
    (db.delete v now).find v.id = none := by
  unfold DB.find
  have h : (db.delete v now).users.find? (fun r => r.id == v.id && r.deletedAt == 0)
      = none := by
    rw [List.find?_eq_none]
    intro x hx
    obtain ⟨y, _, rfl⟩ := List.mem_map.mp hx
    by_cases hy : (y.id == v.id && y.deletedAt == 0) = true
    · simp only [hy, if_true]
      simp [hnow]
    · rw [Bool.not_eq_true] at hy
      simp [hy]
  rw [h, Option.map_none']

lemma delete_findBySocial_none (db : DB) (v : UserData) (now : Nat) (s : String)
    (hs : ∀ r ∈ db.accounts, r.socialID = s → r.userID = v.id) :
    (db.delete v now).findBySocialID s = none := by
  unfold DB.findBySocialID
  have h : (db.delete v now).users.find? (fun r => r.deletedAt == 0 &&
      (db.delete v now).accounts.any (fun a => a.userID == r.id && a.socialID == s))
      = none := by
    rw [List.find?_eq_none]
    intro x _
    have hany : (db.delete v now).accounts.any
        (fun a => a.userID == x.id && a.socialID == s) = false := by
      rw [List.any_eq_false]
      intro a ha
      have ha2 : a ∈ db.accounts.filter (fun r => !(r.userID == v.id)) := ha
      obtain ⟨hmem, hnotv⟩ := List.mem_filter.mp ha2
      simp only [Bool.not_eq_eq_eq_not, Bool.not_true, beq_eq_false_iff_ne, ne_eq] at hnotv
      intro hcon
      simp only [Bool.and_eq_true, beq_iff_eq] at hcon
      exact hnotv (hs a hmem hcon.2)
    rw [hany]
    simp
  rw [h, Option.map_none']

/-- C7 counterexample. When another user's account row carries the same
social id as the deleted user's account, `FindBySocialID` on that social
id after a successful `UserDeletedHandler` returns that other user
instead of failing with not-found: deleting a user only removes that
user's own lookup bindings. -/
theorem c7_counterexample :
    ((UserDeletedHandler c7DB ⟨"u1", 7⟩ 8).1.findBySocialID "X").map (fun w => w.id)
      = some "u2" := by
  decide

/-- C7 as amended. After `UserDeletedHandler` succeeds for a stored
user's `UserDeleted` event, `Find` on that user's id fails with
not-found, and `FindBySocialID` fails with not-found for every social id
among that user's accounts (the delete path removes the social-id lookup
bindings) — provided no other user's account row carries the same social
id (cross-user social-id uniqueness, which the service's use-cases
maintain). The soft-delete clock `now` is nonzero, as a real timestamp
is. -/
theorem c7_user_deleted_handler (db : DB) (e : UserDeletedEvent) (now : Nat)
    (hnow : now ≠ 0) (u : UserData) (hfind : db.find e.userID = some u) :
    (UserDeletedHandler db e now).2 = none
    ∧ (UserDeletedHandler db e now).1.find e.userID = none
    ∧ ∀ s, (∃ acc ∈ u.accounts, acc.socialID = s) →
        (∀ r ∈ db.accounts, r.socialID = s → r.userID = e.userID) →
        (UserDeletedHandler db e now).1.findBySocialID s = none := by
  obtain ⟨hid, -, -, -⟩ := find_facts db e.userID u hfind
  set u1 : UserData := { u with
      status := .revoked
      updatedAt := e.occuredAt
      deletedAt := e.occuredAt } with hu1
  have h1 : UserDeletedHandler db e now = (db.delete u1 now, none) := by
    unfold UserDeletedHandler
    rw [hfind]
  have hid1 : u1.id = e.userID := hid
  refine ⟨by rw [h1], ?_, ?_⟩
  · rw [h1]
    show (db.delete u1 now).find e.userID = none
    rw [← hid1]
    exact delete_find_none db u1 now hnow
  · intro s _ hs
    rw [h1]
    show (db.delete u1 now).findBySocialID s = none
    refine delete_findBySocial_none db u1 now s ?_
    intro r hr hrs
    rw [hid1]
    exact hs r hr hrs

/-- C5 counterexample. On the empty repository, applying
`UserRegisteredHandler` for a snapshot that already holds social id "X"
under the google provider and then `UserSocialAccountAddedHandler` for
the same user adding social id "X" under the line provider, `Find` yields
a user with zero (not one) accounts for the added (line, "X") pair: the
`social_accounts` table is keyed by `(user_id, social_id)` only, so the
added row collides with the google row and is dropped by the store's
on-conflict-do-nothing rewrite. -/
theorem c5_counterexample :
    ((UserSocialAccountAddedHandler (UserRegisteredHandler ⟨[], []⟩ ⟨c5User⟩ 1).1
        ⟨"u1", c5Acc, 2⟩ 2).1.find "u1").map (fun w => pairCount w.accounts "line" "X")
      = some 0 := by
  decide

/-- C5 as amended. Applying `UserRegisteredHandler` for a live user
snapshot and then `UserSocialAccountAddedHandler` for a fresh account
succeeds, `Find` yields a user whose accounts contain exactly one entry
for the added `(provider, socialID)` pair, and redelivering the added
event keeps it at exactly one entry — provided the snapshot's accounts
carry pairwise-distinct social ids none equal to the added one (otherwise
the row collides in the `(user_id, social_id)`-keyed table and is
dropped), and no soft-deleted `users` row occupies the snapshot's id
(otherwise `Save`'s create fallback violates the `users` primary key and
`Store` errors).  The write clocks are arbitrary (the second nonzero, as
a real clock is); the stored timestamps follow the write clocks, not the
events. -/
theorem c5_added_handler_round_trip (db : DB) (u : UserData) (a : SocialAccount)
    (t n₁ n₂ n₃ : Nat)
    (hdel : u.deletedAt = 0) (halive : a.deletedAt = 0)
    (hfresh : ∀ acc ∈ u.accounts, acc.socialID ≠ a.socialID)
    (hnd : (u.accounts.map (fun x => x.socialID)).Nodup)
    (hlive : ∀ acc ∈ u.accounts, acc.deletedAt = 0)
    (hno_tomb : ∀ r ∈ db.users, r.id = u.id → r.deletedAt = 0)
    (hn₂ : n₂ ≠ 0) :
    (UserRegisteredHandler db ⟨u⟩ n₁).2 = none
    ∧ (UserSocialAccountAddedHandler (UserRegisteredHandler db ⟨u⟩ n₁).1
        ⟨u.id, a, t⟩ n₂).2 = none
    ∧ ((UserSocialAccountAddedHandler (UserRegisteredHandler db ⟨u⟩ n₁).1
        ⟨u.id, a, t⟩ n₂).1.find u.id).map
        (fun w => pairCount w.accounts a.provider a.socialID) = some 1
    ∧ (UserSocialAccountAddedHandler (UserSocialAccountAddedHandler
        (UserRegisteredHandler db ⟨u⟩ n₁).1 ⟨u.id, a, t⟩ n₂).1 ⟨u.id, a, t⟩ n₃).2 = none
    ∧ ((UserSocialAccountAddedHandler (UserSocialAccountAddedHandler
        (UserRegisteredHandler db ⟨u⟩ n₁).1 ⟨u.id, a, t⟩ n₂).1 ⟨u.id, a, t⟩ n₃).1.find
        u.id).map (fun w => pairCount w.accounts a.provider a.socialID) = some 1 := by
  obtain ⟨db1, hok1, w0, hfind1, hw_acc, hw_id, hw_del⟩ :
      ∃ db1, db.store u n₁ = .ok db1 ∧ ∃ w0, db1.find u.id = some w0
        ∧ w0.accounts = u.accounts.map (fun x => fillAccountTimes x n₁)
        ∧ w0.id = u.id ∧ w0.deletedAt = 0 := by
    by_cases hex0 : db.users.any (fun x => x.id == u.id && x.deletedAt == 0) = true
    · exact ⟨_, store_live_ok db u n₁ hex0, _,
        store_live_find db u n₁ _ hdel hnd hlive hex0 (store_live_ok db u n₁ hex0),
        rfl, rfl, hdel⟩
    · have hnone : db.users.any (fun x => x.id == u.id) = false := by
        rw [List.any_eq_false]
        intro x hx
        intro hbeq
        refine hex0 (List.any_eq_true.mpr ⟨x, hx, ?_⟩)
        have hxid : x.id = u.id := by
          have hb := hbeq
          simp only [beq_iff_eq] at hb
          exact hb
        simp [hxid, hno_tomb x hx hxid]
      exact ⟨_, store_create_ok db u n₁ hnone, _,
        store_create_find db u n₁ _ hdel hnd hlive hnone (store_create_ok db u n₁ hnone),
        rfl, rfl, hdel⟩
  have hreg : UserRegisteredHandler db ⟨u⟩ n₁ = (db1, none) :=
    registered_handler_eq db ⟨u⟩ n₁ db1 hok1
  have hex1 : db1.users.any (fun x => x.id == u.id && x.deletedAt == 0) = true :=
    find_implies_live_any db1 u.id w0 hfind1
  set u2 : UserData := { w0 with accounts := w0.accounts ++ [a], updatedAt := t }
  have hdel2 : u2.deletedAt = 0 := hw_del
  have hex1' : db1.users.any (fun x => x.id == u2.id && x.deletedAt == 0) = true := by
    rw [show u2.id = u.id from hw_id]
    exact hex1
  have hlive2 : ∀ x ∈ u2.accounts, x.deletedAt = 0 := by
    intro x hx
    have hx2 : x ∈ w0.accounts ++ [a] := hx
    rcases List.mem_append.mp hx2 with hmem | hmem
    · rw [hw_acc] at hmem
      obtain ⟨y, hy, rfl⟩ := List.mem_map.mp hmem
      exact hlive y hy
    · rw [List.mem_singleton.mp hmem]
      exact halive
  have hnd2 : (u2.accounts.map (fun x => x.socialID)).Nodup := by
    show ((w0.accounts ++ [a]).map (fun x => x.socialID)).Nodup
    rw [List.map_append, hw_acc, map_social_fill, List.nodup_append]
    refine ⟨hnd, by simp, ?_⟩
    intro x hx hxa
    obtain ⟨acc, hacc, rfl⟩ := List.mem_map.mp hx
    simp only [List.map_cons, List.map_nil, List.mem_singleton] at hxa
    exact hfresh acc hacc hxa
  obtain ⟨db2, hok2⟩ : ∃ db2, db1.store u2 n₂ = .ok db2 :=
    ⟨_, store_live_ok db1 u2 n₂ hex1'⟩
  have hadd1 : UserSocialAccountAddedHandler db1 ⟨u.id, a, t⟩ n₂ = (db2, none) :=
    added_handler_eq db1 ⟨u.id, a, t⟩ n₂ w0 db2 hfind1 hok2
  have hfind2 : db2.find u.id = some { u2 with
      avatar := ""
      accounts := u2.accounts.map (fun x => fillAccountTimes x n₂)
      updatedAt := n₂ } := by
    have h2 := store_live_find db1 u2 n₂ db2 hdel2 hnd2 hlive2 hex1' hok2
    conv at h2 =>
      lhs
      rw [show u2.id = u.id from hw_id]
    exact h2
  have hpc1 : pairCount (u2.accounts.map (fun x => fillAccountTimes x n₂))
      a.provider a.socialID = 1 := by
    rw [pairCount_map_fill]
    show pairCount (w0.accounts ++ [a]) a.provider a.socialID = 1
    rw [hw_acc]
    refine pairCount_fresh_append _ a ?_
    intro x hx
    obtain ⟨y, hy, rfl⟩ := List.mem_map.mp hx
    exact hfresh y hy
  have hc3 : ((UserSocialAccountAddedHandler db1 ⟨u.id, a, t⟩ n₂).1.find u.id).map
      (fun w => pairCount w.accounts a.provider a.socialID) = some 1 := by
    rw [hadd1]
    show (db2.find u.id).map (fun w => pairCount w.accounts a.provider a.socialID)
      = some 1
    rw [hfind2, Option.map_some']
    exact congrArg some hpc1
  set w1 : UserData := { u2 with
      avatar := ""
      accounts := u2.accounts.map (fun x => fillAccountTimes x n₂)
      updatedAt := n₂ }
  set u3 : UserData := { w1 with accounts := w1.accounts ++ [a], updatedAt := t }
  have hdel3 : u3.deletedAt = 0 := hw_del
  have hex2 : db2.users.any (fun x => x.id == u.id && x.deletedAt == 0) = true :=
    find_implies_live_any db2 u.id w1 hfind2
  have hex2' : db2.users.any (fun x => x.id == u3.id && x.deletedAt == 0) = true := by
    rw [show u3.id = u.id from hw_id]
    exact hex2
  obtain ⟨db3, hok3⟩ : ∃ db3, db2.store u3 n₃ = .ok db3 :=
    ⟨_, store_live_ok db2 u3 n₃ hex2'⟩
  have hadd2 : UserSocialAccountAddedHandler db2 ⟨u.id, a, t⟩ n₃ = (db3, none) :=
    added_handler_eq db2 ⟨u.id, a, t⟩ n₃ w1 db3 hfind2 hok3
  have hdb2 : db2
      = { users := db1.users.map (fun x => if x.id == u2.id && x.deletedAt == 0
            then { NewUserRow u2 with updatedAt := n₂ } else x)
          accounts := insertAccounts
            (db1.accounts.filter (fun r => !(r.userID == u2.id)))
            (u2.accounts.map (fun x => fillRowTimes (NewAccountRow u2.id x) n₂)) } := by
    have hl := store_live_ok db1 u2 n₂ hex1'
    rw [hok2] at hl
    injection hl
  have hacc2 : db2.accounts
      = db1.accounts.filter (fun r => !(r.userID == u.id))
        ++ u2.accounts.map (fun x => fillRowTimes (NewAccountRow u.id x) n₂) := by
    rw [hdb2]
    show insertAccounts (db1.accounts.filter (fun r => !(r.userID == u2.id)))
        (u2.accounts.map (fun x => fillRowTimes (NewAccountRow u2.id x) n₂)) = _
    rw [show u2.id = u.id from hw_id]
    exact insert_kept db1.accounts u.id n₂ u2.accounts hnd2
  have hdb3 : db3
      = { users := db2.users.map (fun x => if x.id == u3.id && x.deletedAt == 0
            then { NewUserRow u3 with updatedAt := n₃ } else x)
          accounts := insertAccounts
            (db2.accounts.filter (fun r => !(r.userID == u3.id)))
            (u3.accounts.map (fun x => fillRowTimes (NewAccountRow u3.id x) n₃)) } := by
    have hl := store_live_ok db2 u3 n₃ hex2'
    rw [hok3] at hl
    injection hl
  have hN : u3.accounts.map (fun x => fillRowTimes (NewAccountRow u.id x) n₃)
      = u2.accounts.map (fun x => fillRowTimes (NewAccountRow u.id x) n₂)
        ++ [fillRowTimes (NewAccountRow u.id a) n₃] := by
    show (w1.accounts ++ [a]).map (fun x => fillRowTimes (NewAccountRow u.id x) n₃) = _
    rw [List.map_append]
    have hsing : [a].map (fun x => fillRowTimes (NewAccountRow u.id x) n₃)
        = [fillRowTimes (NewAccountRow u.id a) n₃] := rfl
    rw [hsing]
    have hmain : w1.accounts.map (fun x => fillRowTimes (NewAccountRow u.id x) n₃)
        = u2.accounts.map (fun x => fillRowTimes (NewAccountRow u.id x) n₂) := by
      show (u2.accounts.map (fun x => fillAccountTimes x n₂)).map
          (fun x => fillRowTimes (NewAccountRow u.id x) n₃)
        = u2.accounts.map (fun x => fillRowTimes (NewAccountRow u.id x) n₂)
      rw [List.map_map]
      refine List.map_congr_left ?_
      intro x _
      show fillRowTimes (NewAccountRow u.id (fillAccountTimes x n₂)) n₃
        = fillRowTimes (NewAccountRow u.id x) n₂
      rw [show NewAccountRow u.id (fillAccountTimes x n₂)
          = fillRowTimes (NewAccountRow u.id x) n₂ from rfl]
      exact fillRow_noop _ n₃ (fillTime_ne_zero x.createdAt n₂ hn₂)
        (fillTime_ne_zero x.updatedAt n₂ hn₂)
    rw [hmain]
  have hacc3 : db3.accounts = db2.accounts := by
    rw [hdb3]
    show insertAccounts (db2.accounts.filter (fun r => !(r.userID == u3.id)))
        (u3.accounts.map (fun x => fillRowTimes (NewAccountRow u3.id x) n₃))
      = db2.accounts
    rw [show u3.id = u.id from hw_id, hN, hacc2, List.filter_append]
    have hk1 : (db1.accounts.filter (fun r => !(r.userID == u.id))).filter
        (fun r => !(r.userID == u.id))
        = db1.accounts.filter (fun r => !(r.userID == u.id)) := by
      rw [List.filter_filter]
      simp [Bool.and_self]
    have hk2 : (u2.accounts.map (fun x => fillRowTimes (NewAccountRow u.id x) n₂)).filter
        (fun r => !(r.userID == u.id)) = [] := by
      rw [List.filter_eq_nil_iff]
      intro r hr
      obtain ⟨x, _, rfl⟩ := List.mem_map.mp hr
      simp [fillRowTimes, NewAccountRow]
    rw [hk1, hk2, List.append_nil, insertAccounts_eq]
    congr 1
    have hfreshN : ∀ r ∈ u2.accounts.map
        (fun x => fillRowTimes (NewAccountRow u.id x) n₂),
        (db1.accounts.filter (fun x => !(x.userID == u.id))).any (keyMatch r)
          = false := by
      intro r hr
      obtain ⟨x, _, rfl⟩ := List.mem_map.mp hr
      exact kept_any_false db1.accounts u.id _ rfl
    have hkeysN := candidates_keys_nodup u.id n₂ u2.accounts hnd2
    rw [filterNew_append_drop]
    · exact filterNew_of_fresh _ _ hfreshN hkeysN
    · rw [filterNew_of_fresh _ _ hfreshN hkeysN, List.any_append]
      have hmm : (u2.accounts.map
          (fun x => fillRowTimes (NewAccountRow u.id x) n₂)).any
          (keyMatch (fillRowTimes (NewAccountRow u.id a) n₃)) = true := by
        refine List.any_eq_true.mpr ⟨fillRowTimes (NewAccountRow u.id a) n₂, ?_, ?_⟩
        · refine List.mem_map.mpr ⟨a, ?_, rfl⟩
          show a ∈ w0.accounts ++ [a]
          exact List.mem_append.mpr (Or.inr (by simp))
        · simp [keyMatch, fillRowTimes, NewAccountRow]
      rw [hmm]
      simp
  have hfind3 : db3.find u.id
      = some (({ NewUserRow u3 with updatedAt := n₃ } : UserRow).reconstitute
          (db2.preload u.id)) := by
    unfold DB.find
    have hrowfind : db3.users.find? (fun r => r.id == u.id && r.deletedAt == 0)
        = some { NewUserRow u3 with updatedAt := n₃ } := by
      rw [hdb3]
      show (db2.users.map (fun x => if x.id == u3.id && x.deletedAt == 0
          then { NewUserRow u3 with updatedAt := n₃ } else x)).find?
        (fun r => r.id == u.id && r.deletedAt == 0) = _
      rw [show u3.id = u.id from hw_id]
      exact map_save_find db2.users (NewUserRow u3) n₃ u.id hw_id hdel3 hex2
    rw [hrowfind, Option.map_some']
    rw [show db3.preload u.id = db2.preload u.id from preload_congr db3 db2 u.id hacc3]
  have hpre2 : db2.preload u.id = w1.accounts :=
    (find_accounts_preload db2 u.id w1 hfind2).symm
  have hc5 : ((UserSocialAccountAddedHandler db2 ⟨u.id, a, t⟩ n₃).1.find u.id).map
      (fun w => pairCount w.accounts a.provider a.socialID) = some 1 := by
    rw [hadd2]
    show (db3.find u.id).map (fun w => pairCount w.accounts a.provider a.socialID)
      = some 1
    rw [hfind3, Option.map_some']
    show some (pairCount (db2.preload u.id) a.provider a.socialID) = some 1
    rw [hpre2]
    exact congrArg some hpc1
  have hstep2 : (UserSocialAccountAddedHandler db1 ⟨u.id, a, t⟩ n₂).2 = none := by
    rw [hadd1]
  have hstep4 : (UserSocialAccountAddedHandler
      (UserSocialAccountAddedHandler db1 ⟨u.id, a, t⟩ n₂).1 ⟨u.id, a, t⟩ n₃).2
      = none := by
    rw [hadd1]
    show (UserSocialAccountAddedHandler db2 ⟨u.id, a, t⟩ n₃).2 = none
    rw [hadd2]
  have hc5' : ((UserSocialAccountAddedHandler
      (UserSocialAccountAddedHandler db1 ⟨u.id, a, t⟩ n₂).1 ⟨u.id, a, t⟩ n₃).1.find
      u.id).map (fun w => pairCount w.accounts a.provider a.socialID) = some 1 := by
    rw [hadd1]
    show ((UserSocialAccountAddedHandler db2 ⟨u.id, a, t⟩ n₃).1.find u.id).map
      (fun w => pairCount w.accounts a.provider a.socialID) = some 1
    exact hc5
  refine ⟨by rw [hreg], ?_, ?_, ?_, ?_⟩
  · rw [hreg]
    exact hstep2
  · rw [hreg]
    exact hc3
  · rw [hreg]
    exact hstep4
  · rw [hreg]
    exact hc5'

/-- Witness for C5's amended theorem at a concrete input. -/
theorem c5_witness :
    ((UserSocialAccountAddedHandler (UserRegisteredHandler ⟨[], []⟩ ⟨sampleUser⟩ 3).1
        ⟨"u1", ⟨"l7", "line", 2, 2, 0⟩, 9⟩ 4).1.find "u1").map
      (fun w => pairCount w.accounts "line" "l7") = some 1 := by
  have h := c5_added_handler_round_trip ⟨[], []⟩ sampleUser ⟨"l7", "line", 2, 2, 0⟩
    9 3 4 5 rfl rfl (by decide) (by decide) (by decide) (by decide) (by decide)
  exact h.2.2.1

/-- Witness for C6's amended theorem at a concrete repository: activation
at write clock 9 stores `UpdatedAt = 9`. -/
theorem c6_witness :
    (UserActivatedHandler sampleDB ⟨"u1", Status.activated, 5⟩ 9).1.find "u1"
      = some { sampleUser with status := Status.activated, updatedAt := 9 } := by
  have h := (c6_user_activated_handler sampleDB ⟨"u1", Status.activated, 5⟩ 9
      (by decide)).2 sampleUser rfl (by decide)
  exact h.2.1

/-- Witness for C7 at a concrete repository. -/
theorem c7_witness :
    (UserDeletedHandler sampleDB ⟨"u1", 7⟩ 8).1.find "u1" = none
    ∧ (UserDeletedHandler sampleDB ⟨"u1", 7⟩ 8).1.findBySocialID "g9" = none := by
  have h := c7_user_deleted_handler sampleDB ⟨"u1", 7⟩ 8 (by decide) sampleUser rfl
  exact ⟨h.2.1, h.2.2 "g9" (by decide) (by decide)⟩

/-- Witness for C9's amended theorem at a concrete repository: the second
application of the removed-handler at the same write clock is accepted
and is a no-op. -/
theorem c9_witness :
    UserSocialAccountRemovedHandler
        (UserSocialAccountRemovedHandler sampleDB sampleRemovedEvent 6).1
        sampleRemovedEvent 6
      = ((UserSocialAccountRemovedHandler sampleDB sampleRemovedEvent 6).1, none) := by
  have h := c9_social_account_removed_handler sampleDB sampleRemovedEvent 6
    (by decide) sampleUser rfl (by decide)
  exact h.2.2

end Identity
